import Mathlib

/-!
# CBreakableCube (game/server/cw12/BreakableCube.cpp)

A shallow embedding of the breakable cube entity: `Spawn`, `Event_Killed` and
`CreateDebris`, with the engine calls they issue recorded as a trace of effects.

The functions are written over an arbitrary number type `K` that has the operations the
source uses (`+`, `-`, `*`, `/`, unary minus, literals) and no laws. Two number types are
used below: an ordered field (exact arithmetic), and `Float32`, a model of the binary32
arithmetic of `vec_t` in which every operation rounds its exact result to nearest, ties to
even. Statements that need more than the shape of the computed expression are proved for
every number type, under the conditions stated in them, and their failure without those
conditions is shown on `Float32`.
-/

namespace BreakableCube

/-! ## Constants of the source file -/

/-- `#define ENTITY_MODEL`. -/
def ENTITY_MODEL : String := "models/cubes/big_cube.mdl"

/-- `#define DEBRIS_MODEL`. -/
def DEBRIS_MODEL : String := "models/cubes/mini_cube.mdl"

/-- `#define CUBE_HEALTH`. -/
def CUBE_HEALTH : Int := 100

/-! ## Vectors -/

/-- The engine's `Vector`: three `vec_t` components. -/
@[ext]
structure Vector (K : Type) where
  x : K
  y : K
  z : K
deriving DecidableEq

/-- The engine's `QAngle` has the same three-component layout. -/
abbrev QAngle (K : Type) : Type := Vector K

section VectorOps

variable {K : Type} [Add K] [Sub K] [Mul K] [Div K] [Neg K] [Zero K] [One K] [NatCast K]
  [OfScientific K] [DecidableEq K]

/-- `Vector::operator+`. -/
instance : Add (Vector K) := ⟨fun a b => ⟨a.x + b.x, a.y + b.y, a.z + b.z⟩⟩

/-- `Vector::operator-`. -/
instance : Sub (Vector K) := ⟨fun a b => ⟨a.x - b.x, a.y - b.y, a.z - b.z⟩⟩

/-- `Vector::operator-()`: componentwise negation. -/
instance : Neg (Vector K) := ⟨fun a => ⟨-a.x, -a.y, -a.z⟩⟩

/-- `Vector::operator*(float)`. -/
instance : HMul (Vector K) K (Vector K) := ⟨fun a s => ⟨a.x * s, a.y * s, a.z * s⟩⟩

/-- `Vector::operator/(float)`. -/
instance : HDiv (Vector K) K (Vector K) := ⟨fun a s => ⟨a.x / s, a.y / s, a.z / s⟩⟩

/-- The zero vector (`vec3_origin`). -/
def vec3_origin : Vector K := ⟨0, 0, 0⟩

/-- `Vector::LengthSqr`: the squared Euclidean length. -/
def LengthSqr (v : Vector K) : K := v.x * v.x + v.y * v.y + v.z * v.z

/-- Modelled from the spec: `VectorNormalize` is an engine helper whose body is not in
the source file. The spec describes `normalize(v)` as the unit vector along `v`, and the
zero vector when `v` is zero ("a guarded edge case producing a zero outward component,
not a crash"). The square root is the parameter `sqrtf`. -/
def VectorNormalize (sqrtf : K → K) (v : Vector K) : Vector K :=
  let l := sqrtf (LengthSqr v)
  if l ≠ 0 then v / l else vec3_origin

end VectorOps

/-! ## Fragment placement (the arithmetic of the `CreateDebris` loop body) -/

section Placement

variable {K : Type} [Add K] [Sub K] [Mul K] [Div K] [Neg K] [Zero K] [One K] [NatCast K]
  [OfScientific K] [DecidableEq K]

/-- `vecOffset` of `CreateDebris`: `vecSize = vecMaxs - vecMins; vecOffset = vecSize * 0.25f`. -/
def vecOffset (vecMins vecMaxs : Vector K) : Vector K :=
  let vecSize := vecMaxs - vecMins
  vecSize * (0.25 : K)

/-- `spawnPos` of `CreateDebris` for the mask `i`: starts at `vecCenter`, then on each
axis adds the offset when the axis bit of `i` is set and subtracts it otherwise. -/
def spawnPos (vecCenter vecOffset : Vector K) (i : Nat) : Vector K :=
  let spawnPos := vecCenter
  let spawnPos := { spawnPos with
    x := spawnPos.x + (if (i &&& 1) ≠ 0 then vecOffset.x else -vecOffset.x) }
  let spawnPos := { spawnPos with
    y := spawnPos.y + (if (i &&& 2) ≠ 0 then vecOffset.y else -vecOffset.y) }
  let spawnPos := { spawnPos with
    z := spawnPos.z + (if (i &&& 4) ≠ 0 then vecOffset.z else -vecOffset.z) }
  spawnPos

end Placement

/-! ## Engine types used by the entity -/

/-- Modelled from the spec: `SolidType_t` is declared in the engine headers, not in the
source file; the names are the ones the source uses ("full collision mesh" is
`SOLID_VPHYSICS`, "bounding-box proxy" is `SOLID_BBOX`). -/
inductive SolidType_t where
  | SOLID_NONE
  | SOLID_BSP
  | SOLID_BBOX
  | SOLID_OBB
  | SOLID_OBB_YAW
  | SOLID_CUSTOM
  | SOLID_VPHYSICS
deriving DecidableEq, Repr

/-- Modelled from the spec: `MoveType_t` is declared in the engine headers; only the
values the entity can be given here are listed. -/
inductive MoveType_t where
  | MOVETYPE_NONE
  | MOVETYPE_VPHYSICS
deriving DecidableEq, Repr

/-- Modelled from the spec: the values of `m_takedamage` ("damage acceptance"), declared
in the engine headers. -/
inductive TakeDamage_t where
  | DAMAGE_NO
  | DAMAGE_EVENTS_ONLY
  | DAMAGE_YES
  | DAMAGE_AIM
deriving DecidableEq, Repr

/-- Modelled from the spec: the "non-solid" bit of the solid flags, declared in the engine
headers. Only its being one fixed bit mask is used. -/
def FSOLID_NOT_SOLID : Nat := 4

/-- The fields of the cube entity that the source file reads or writes. -/
structure CBreakableCube (K : Type) where
  /-- The entity index, `entindex()`. -/
  entindex : Nat
  /-- The model set by `SetModel`. -/
  m_ModelName : String
  /-- The solid type set by `SetSolid`. -/
  m_nSolidType : SolidType_t
  /-- The solid flags, a bit mask. -/
  m_usSolidFlags : Nat
  /-- The move type set by `SetMoveType`. -/
  m_MoveType : MoveType_t
  /-- The health set by `SetHealth`. -/
  m_iHealth : Int
  /-- Whether damage is accepted. -/
  m_takedamage : TakeDamage_t
  /-- The world position returned by `GetAbsOrigin`. -/
  m_vecAbsOrigin : Vector K
  /-- The world orientation returned by `GetAbsAngles`. -/
  m_angAbsRotation : QAngle K
  /-- The lower corner written by `GetAliveWorldAlignedMinsAndMaxs`. -/
  m_vecMins : Vector K
  /-- The upper corner written by `GetAliveWorldAlignedMinsAndMaxs`. -/
  m_vecMaxs : Vector K

/-- The part of `CTakeDamageInfo` that matters here: the force vector read by
`GetDamageForce`, and the damage amount, which `Event_Killed` never reads. -/
structure CTakeDamageInfo (K : Type) where
  m_vecDamageForce : Vector K
  m_flDamage : K

/-- The calls into the engine that the entity issues, in the order issued. Entities and
physics objects are named by handles. -/
inductive Effect (K : Type) where
  /-- `PrecacheModel( name )`. -/
  | PrecacheModel (name : String)
  /-- `BaseClass::Precache()`. -/
  | BaseClass_Precache
  /-- `CreateEntityByName( className )` together with what it returned. -/
  | CreateEntityByName (className : String) (result : Option Nat)
  /-- `pDebris->SetAbsOrigin( pos )`. -/
  | SetAbsOrigin (ent : Nat) (pos : Vector K)
  /-- `pDebris->SetAbsAngles( ang )`. -/
  | SetAbsAngles (ent : Nat) (ang : QAngle K)
  /-- `pDebris->SetModel( name )`. -/
  | SetModel (ent : Nat) (name : String)
  /-- `pDebris->Spawn()`. -/
  | Spawn (ent : Nat)
  /-- `pPhys->SetVelocity( &vel, NULL )`. -/
  | SetVelocity (phys : Nat) (vel : Vector K)
  /-- `EmitSound( filter, entindex, soundname )`. -/
  | EmitSound (ent : Nat) (soundname : String)
  /-- `UTIL_Remove( this )`. -/
  | UTIL_Remove (ent : Nat)
deriving DecidableEq

/-- The engine services whose bodies are outside the source file, taken as parameters. -/
structure Engine (K : Type) where
  /-- The square root used by `VectorNormalize`. -/
  sqrtf : K → K
  /-- What the `n`-th `CreateEntityByName` call of a fragmentation run returns: the new
  entity, or `none` for a null pointer. -/
  CreateEntityByName : Nat → String → Option Nat
  /-- What `VPhysicsGetObject` returns for a spawned entity: its physics object, or
  `none` for a null pointer. -/
  VPhysicsGetObject : Nat → Option Nat
  /-- The `VPhysicsInitNormal( solidType, nSolidFlags, createAsleep )` call: the physics
  object it returns (`none` for null) and the entity as it leaves it. -/
  VPhysicsInitNormal : SolidType_t → Nat → Bool → CBreakableCube K →
    Option Nat × CBreakableCube K
  /-- The `BaseClass::Spawn()` call. -/
  BaseClass_Spawn : CBreakableCube K → CBreakableCube K

/-! ## The entity's member functions -/

section Members

variable {K : Type} [Add K] [Sub K] [Mul K] [Div K] [Neg K] [Zero K] [One K] [NatCast K]
  [OfScientific K] [DecidableEq K]

/-- `CBaseEntity::SetModel`, as far as the modelled fields go. -/
def CBreakableCube.SetModel (self : CBreakableCube K) (name : String) : CBreakableCube K :=
  { self with m_ModelName := name }

/-- `CBaseEntity::SetSolid`. -/
def CBreakableCube.SetSolid (self : CBreakableCube K) (val : SolidType_t) :
    CBreakableCube K :=
  { self with m_nSolidType := val }

/-- `CBaseEntity::AddSolidFlags`: ors the flags in. -/
def CBreakableCube.AddSolidFlags (self : CBreakableCube K) (flags : Nat) :
    CBreakableCube K :=
  { self with m_usSolidFlags := self.m_usSolidFlags ||| flags }

/-- `CBaseEntity::IsSolidFlagSet`. -/
def CBreakableCube.IsSolidFlagSet (self : CBreakableCube K) (flagMask : Nat) : Bool :=
  (self.m_usSolidFlags &&& flagMask) != 0

/-- `CBaseEntity::SetMoveType`. -/
def CBreakableCube.SetMoveType (self : CBreakableCube K) (val : MoveType_t) :
    CBreakableCube K :=
  { self with m_MoveType := val }

/-- `CBaseEntity::SetHealth`. -/
def CBreakableCube.SetHealth (self : CBreakableCube K) (amt : Int) : CBreakableCube K :=
  { self with m_iHealth := amt }

/-- `CBaseEntity::GetAbsOrigin`. -/
def CBreakableCube.GetAbsOrigin (self : CBreakableCube K) : Vector K :=
  self.m_vecAbsOrigin

/-- `CBaseEntity::GetAbsAngles`. -/
def CBreakableCube.GetAbsAngles (self : CBreakableCube K) : QAngle K :=
  self.m_angAbsRotation

/-- `GetAliveWorldAlignedMinsAndMaxs( &vecMins, &vecMaxs )`: the two output arguments. -/
def CBreakableCube.GetAliveWorldAlignedMinsAndMaxs (self : CBreakableCube K) :
    Vector K × Vector K :=
  (self.m_vecMins, self.m_vecMaxs)

/-- `CTakeDamageInfo::GetDamageForce`. -/
def CTakeDamageInfo.GetDamageForce (info : CTakeDamageInfo K) : Vector K :=
  info.m_vecDamageForce

/-- `CBreakableCube::Precache`. -/
def Precache : List (Effect K) :=
  [Effect.PrecacheModel ENTITY_MODEL, Effect.PrecacheModel DEBRIS_MODEL,
   Effect.BaseClass_Precache]

/-- `CBreakableCube::Spawn`: the engine calls issued and the entity afterwards. -/
def Spawn (eng : Engine K) (self : CBreakableCube K) :
    List (Effect K) × CBreakableCube K :=
  let trace : List (Effect K) := Precache
  let self := self.SetModel ENTITY_MODEL
  let self := self.SetSolid SolidType_t.SOLID_VPHYSICS
  let self := self.SetMoveType MoveType_t.MOVETYPE_NONE
  let r := eng.VPhysicsInitNormal SolidType_t.SOLID_VPHYSICS 0 false self
  let self := r.2
  let self :=
    if r.1.isNone then
      (self.SetSolid SolidType_t.SOLID_BBOX).AddSolidFlags FSOLID_NOT_SOLID
    else self
  let self := self.SetHealth CUBE_HEALTH
  let self := { self with m_takedamage := TakeDamage_t.DAMAGE_YES }
  (trace, eng.BaseClass_Spawn self)

/-- One pass of the `for` loop of `CreateDebris`, for the mask `i`. -/
def CreateDebris_body (eng : Engine K) (self : CBreakableCube K)
    (pushVelocity vecCenter vecOffset : Vector K) (i : Nat) : List (Effect K) :=
  let spawnPos := spawnPos vecCenter vecOffset i
  let pDebris := eng.CreateEntityByName i "prop_physics"
  Effect.CreateEntityByName "prop_physics" pDebris ::
  match pDebris with
  | none => []
  | some pDebris =>
    [Effect.SetAbsOrigin pDebris spawnPos,
     Effect.SetAbsAngles pDebris self.GetAbsAngles,
     Effect.SetModel pDebris DEBRIS_MODEL,
     Effect.Spawn pDebris] ++
    match eng.VPhysicsGetObject pDebris with
    | none => []
    | some pPhys =>
      let vecOutward := spawnPos - vecCenter
      let vecOutward := VectorNormalize eng.sqrtf vecOutward
      let finalVel := pushVelocity + (vecOutward * (300 : K))
      [Effect.SetVelocity pPhys finalVel]

/-- `CBreakableCube::CreateDebris`: the loop `for ( int i = 0; i < 8; i++ )`. -/
def CreateDebris (eng : Engine K) (self : CBreakableCube K) (pushVelocity : Vector K) :
    List (Effect K) :=
  let mm := self.GetAliveWorldAlignedMinsAndMaxs
  let vecMins := mm.1
  let vecMaxs := mm.2
  let vecCenter := self.GetAbsOrigin
  let vecOffset := vecOffset vecMins vecMaxs
  (List.range 8).flatMap (CreateDebris_body eng self pushVelocity vecCenter vecOffset)

/-- `CBreakableCube::Event_Killed`: the engine calls issued, and the entity afterwards
(no field of the entity is written). -/
def Event_Killed (eng : Engine K) (self : CBreakableCube K) (info : CTakeDamageInfo K) :
    List (Effect K) × CBreakableCube K :=
  let vecForce := info.GetDamageForce
  let vecForce := VectorNormalize eng.sqrtf vecForce
  let vecForce := vecForce * (200 : K)
  let trace := CreateDebris eng self vecForce
  let trace := trace ++ [Effect.EmitSound self.entindex "Physics.GlassBreak"]
  let trace := trace ++ [Effect.UTIL_Remove self.entindex]
  (trace, self)

end Members

/-! ## Reading a trace -/

section Observations

variable {K : Type} [Add K] [Sub K] [Mul K] [Div K] [Neg K] [Zero K] [One K] [NatCast K]
  [OfScientific K] [DecidableEq K]

/-- The results of the `CreateEntityByName` calls of a trace, in order. -/
def createCalls (t : List (Effect K)) : List (Option Nat) :=
  t.filterMap fun e => match e with
    | Effect.CreateEntityByName _ r => some r
    | _ => none

/-- The `SetAbsOrigin` calls of a trace, in order: entity and position. -/
def originsSet (t : List (Effect K)) : List (Nat × Vector K) :=
  t.filterMap fun e => match e with
    | Effect.SetAbsOrigin ent pos => some (ent, pos)
    | _ => none

/-- The `SetAbsAngles` calls of a trace, in order: entity and orientation. -/
def anglesSet (t : List (Effect K)) : List (Nat × QAngle K) :=
  t.filterMap fun e => match e with
    | Effect.SetAbsAngles ent ang => some (ent, ang)
    | _ => none

/-- The `SetVelocity` calls of a trace, in order: physics object and velocity. -/
def velocitiesSet (t : List (Effect K)) : List (Nat × Vector K) :=
  t.filterMap fun e => match e with
    | Effect.SetVelocity phys vel => some (phys, vel)
    | _ => none

/-- Whether an engine call is one of the calls that create and set up a fragment. -/
def isFragmentCall (e : Effect K) : Bool :=
  match e with
  | Effect.CreateEntityByName _ _ => true
  | Effect.SetAbsOrigin _ _ => true
  | Effect.SetAbsAngles _ _ => true
  | Effect.SetModel _ _ => true
  | Effect.Spawn _ => true
  | Effect.SetVelocity _ _ => true
  | _ => false

/-- The factor `+1` or `-1` of a sign. -/
def signFactor (positive : Bool) : K := if positive then 1 else -1

/-- The spawn position `CreateDebris` computes for the mask `i`. -/
def fragmentPos (self : CBreakableCube K) (i : Nat) : Vector K :=
  spawnPos self.GetAbsOrigin (vecOffset self.m_vecMins self.m_vecMaxs) i

/-- The outward direction `CreateDebris` computes for the mask `i`. -/
def fragmentOutward (sqrtf : K → K) (self : CBreakableCube K) (i : Nat) : Vector K :=
  VectorNormalize sqrtf (fragmentPos self i - self.GetAbsOrigin)

/-- The velocity `CreateDebris` computes for the mask `i`. -/
def fragmentVel (sqrtf : K → K) (self : CBreakableCube K) (pushVelocity : Vector K)
    (i : Nat) : Vector K :=
  pushVelocity + fragmentOutward sqrtf self i * (300 : K)

/-- The bounding-box corner selected by the mask `i`: the upper bound on an axis whose
bit of `i` is set, the lower bound otherwise. -/
def boxCorner (vecMins vecMaxs : Vector K) (i : Nat) : Vector K :=
  ⟨if i.testBit 0 then vecMaxs.x else vecMins.x,
   if i.testBit 1 then vecMaxs.y else vecMins.y,
   if i.testBit 2 then vecMaxs.z else vecMins.z⟩

/-- A cube at the world origin with the box `(-10,-10,-10)`..`(10,10,10)`, as it is
after `Spawn`. -/
def exampleCube : CBreakableCube K :=
  { entindex := 1
    m_ModelName := ENTITY_MODEL
    m_nSolidType := SolidType_t.SOLID_VPHYSICS
    m_usSolidFlags := 0
    m_MoveType := MoveType_t.MOVETYPE_VPHYSICS
    m_iHealth := CUBE_HEALTH
    m_takedamage := TakeDamage_t.DAMAGE_YES
    m_vecAbsOrigin := ⟨0, 0, 0⟩
    m_angAbsRotation := ⟨0, 0, 0⟩
    m_vecMins := ⟨-10, -10, -10⟩
    m_vecMaxs := ⟨10, 10, 10⟩ }

/-- An engine in which every request succeeds: the `n`-th created entity has the handle
`n`, its physics object the same handle, `VPhysicsInitNormal` installs the requested
solid type and flags, and `BaseClass::Spawn` changes nothing. -/
def exampleEngine (sqrtf : K → K) : Engine K :=
  { sqrtf := sqrtf
    CreateEntityByName := fun n _ => some n
    VPhysicsGetObject := fun e => some e
    VPhysicsInitNormal := fun solidType nSolidFlags _ self =>
      (some 0, { self with m_nSolidType := solidType, m_usSolidFlags := nSolidFlags,
                           m_MoveType := MoveType_t.MOVETYPE_VPHYSICS })
    BaseClass_Spawn := fun self => self }

/-- An engine in which the creation for the mask 3 returns a null pointer and every other
request succeeds as in `exampleEngine`. -/
def oneFailEngine (sqrtf : K → K) : Engine K :=
  { exampleEngine sqrtf with
    CreateEntityByName := fun n _ => if n = 3 then none else some n }

/-- The centre plus the offset taken with the given sign on each axis (`true` is `+`). -/
def signedOffset (vecCenter vecOffset : Vector K) (sx sy sz : Bool) : Vector K :=
  ⟨vecCenter.x + (if sx then vecOffset.x else -vecOffset.x),
   vecCenter.y + (if sy then vecOffset.y else -vecOffset.y),
   vecCenter.z + (if sz then vecOffset.z else -vecOffset.z)⟩

/-- A cube as it is after `Spawn`, with the given origin and bounding box. -/
def cubeAt (origin vecMins vecMaxs : Vector K) : CBreakableCube K :=
  { entindex := 1
    m_ModelName := ENTITY_MODEL
    m_nSolidType := SolidType_t.SOLID_VPHYSICS
    m_usSolidFlags := 0
    m_MoveType := MoveType_t.MOVETYPE_VPHYSICS
    m_iHealth := CUBE_HEALTH
    m_takedamage := TakeDamage_t.DAMAGE_YES
    m_vecAbsOrigin := origin
    m_angAbsRotation := ⟨0, 0, 0⟩
    m_vecMins := vecMins
    m_vecMaxs := vecMaxs }

end Observations

/-- The operations that place a fragment on one axis (centre `c`, box `lo`..`hi`) are
carried out without rounding error: `val` reads `hi - lo`, the product with `0.25` and the
two sums `c ± offset` as the exact difference, quarter and sums. -/
def PlacementExact {F R : Type} [Add F] [Sub F] [Mul F] [Neg F] [OfScientific F]
    [LinearOrderedField R] (val : F → R) (c lo hi : F) : Prop :=
  val (hi - lo) = val hi - val lo ∧
  val ((hi - lo) * 0.25) = val (hi - lo) / 4 ∧
  val (c + (hi - lo) * 0.25) = val c + val ((hi - lo) * 0.25) ∧
  val (c + -((hi - lo) * 0.25)) = val c - val ((hi - lo) * 0.25)

/-- Adding a zero offset to the coordinate `c` and taking the displacement from `c` gives
zero (in binary32 this holds for every finite `c`). -/
def ZeroOffsetKept {F : Type} [Add F] [Sub F] [Mul F] [Neg F] [Zero F] [OfScientific F]
    (c : F) : Prop :=
  c + (0 : F) * 0.25 - c = 0 ∧ c + -((0 : F) * 0.25) - c = 0

/-- The normalisation of `d` is carried out without rounding error: `val` reads the
computed length as a positive number whose square is the squared length of `d`, and the
three quotients by it as the exact quotients. -/
def NormalizeExact {F R : Type} [Add F] [Mul F] [Div F] [LinearOrderedField R]
    (val : F → R) (sqrtf : F → F) (d : Vector F) : Prop :=
  0 < val (sqrtf (LengthSqr d)) ∧
  val (sqrtf (LengthSqr d)) * val (sqrtf (LengthSqr d)) =
    val d.x * val d.x + val d.y * val d.y + val d.z * val d.z ∧
  val (d.x / sqrtf (LengthSqr d)) = val d.x / val (sqrtf (LengthSqr d)) ∧
  val (d.y / sqrtf (LengthSqr d)) = val d.y / val (sqrtf (LengthSqr d)) ∧
  val (d.z / sqrtf (LengthSqr d)) = val d.z / val (sqrtf (LengthSqr d))

/-- Negation commutes with multiplication and division and fixes zero (as in binary32,
where rounding is symmetric about zero). -/
def SignSymmetric (F : Type) [Mul F] [Div F] [Neg F] [Zero F] : Prop :=
  (∀ a b : F, -a * b = -(a * b)) ∧ (∀ a : F, -a * -a = a * a) ∧
  (∀ a b : F, -a / b = -(a / b)) ∧ -(0 : F) = 0

/-- The sums `a + b` and `a + -b` are carried out without rounding error. -/
def SumsExact {F R : Type} [Add F] [Neg F] [LinearOrderedField R] (val : F → R)
    (a b : F) : Prop :=
  val (a + b) = val a + val b ∧ val (a + -b) = val a - val b

/-- The sums of the values of the components of a list of vectors. -/
def valSum {F R : Type} [LinearOrderedField R] (val : F → R) (l : List (Vector F)) :
    Vector R :=
  ⟨(l.map fun v => val v.x).sum, (l.map fun v => val v.y).sum, (l.map fun v => val v.z).sum⟩

/-! ## The binary32 arithmetic of `vec_t` -/

/-- A binary32 value: a finite number `m * 2^e` (with `m` odd, or `m = 0` and `e = 0`),
an infinity, or a NaN. The sign of a zero is not recorded. -/
inductive Float32 where
  | finite (m : Int) (e : Int)
  | inf (neg : Bool)
  | nan
deriving DecidableEq, Repr

namespace Float32

/-- The position of the highest set bit of `n`, with the recursion bounded by `fuel`. -/
def log2Aux : Nat → Nat → Nat
  | 0, _ => 0
  | fuel + 1, n => if n < 2 then 0 else log2Aux fuel (n / 2) + 1

/-- The position of the highest set bit of `n` (0 for `n = 0`). -/
def log2 (n : Nat) : Nat := log2Aux n n

/-- The finite value `± m * 2^e` in normal form: the trailing zero bits of `m` are moved
into the exponent. -/
def norm (neg : Bool) (m : Nat) (e : Int) : Float32 :=
  if m = 0 then finite 0 0
  else
    let t := log2 (m ^^^ (m - 1))
    finite (if neg then -((m >>> t : Nat) : Int) else ((m >>> t : Nat) : Int)) (e + (t : Int))

/-- Rounding to binary32, to nearest and ties to even, of the exact value `± m * 2^e`
(`sticky` says that the exact value lies strictly above `m * 2^e`, by less than `2^e`).
The last bit kept has the exponent `q`: 24 significant bits, and no bit below `2^-149`.
A result of `2^128` or more is an infinity. -/
def round (neg : Bool) (m : Nat) (e : Int) (sticky : Bool) : Float32 :=
  if m = 0 then finite 0 0
  else
    let q : Int := max (((log2 m : Nat) : Int) + e - 23) (-149)
    let s : Nat := (q - e).toNat
    let mq : Nat := m >>> s
    let r : Nat := m % 2 ^ s
    let up : Bool :=
      s != 0 && (decide (2 ^ (s - 1) < r) || (r == 2 ^ (s - 1) && (sticky || mq % 2 == 1)))
    let mq' : Nat := if up then mq + 1 else mq
    let q' : Int := if s = 0 then e else q
    if 128 ≤ ((log2 mq' : Nat) : Int) + q' then inf neg else norm neg mq' q'

/-- Binary32 addition. -/
def add : Float32 → Float32 → Float32
  | nan, _ => nan
  | _, nan => nan
  | inf a, inf b => if a = b then inf a else nan
  | inf a, finite _ _ => inf a
  | finite _ _, inf b => inf b
  | finite m1 e1, finite m2 e2 =>
    let e := min e1 e2
    let s := m1 * (2 : Int) ^ (e1 - e).toNat + m2 * (2 : Int) ^ (e2 - e).toNat
    round (decide (s < 0)) s.natAbs e false

/-- Binary32 negation. -/
def neg : Float32 → Float32
  | nan => nan
  | inf a => inf (!a)
  | finite m e => finite (-m) e

/-- Binary32 multiplication. -/
def mul : Float32 → Float32 → Float32
  | nan, _ => nan
  | _, nan => nan
  | inf a, inf b => inf (a != b)
  | inf a, finite m _ => if m = 0 then nan else inf (a != decide (m < 0))
  | finite m _, inf b => if m = 0 then nan else inf (b != decide (m < 0))
  | finite m1 e1, finite m2 e2 =>
    round (decide (m1 * m2 < 0)) (m1 * m2).natAbs (e1 + e2) false

/-- The quotient `± (n / d) * 2^e` rounded to binary32: the integer quotient is taken with
at least 64 bits, and a remainder makes the value sticky. -/
def roundQuot (neg : Bool) (n d : Nat) (e : Int) : Float32 :=
  let k : Nat := log2 d + 64
  round neg ((n <<< k) / d) (e - (k : Int)) ((n <<< k) % d != 0)

/-- Binary32 division. A zero divisor counts as `+0`. -/
def div : Float32 → Float32 → Float32
  | nan, _ => nan
  | _, nan => nan
  | inf _, inf _ => nan
  | inf a, finite m _ => inf (a != decide (m < 0))
  | finite _ _, inf _ => finite 0 0
  | finite m1 e1, finite m2 e2 =>
    if m2 = 0 then (if m1 = 0 then nan else inf (decide (m1 < 0)))
    else roundQuot (decide (m1 < 0) != decide (m2 < 0)) m1.natAbs m2.natAbs (e1 - e2)

/-- The integer square root, bit by bit from bit `b - 1` down to bit 0. -/
def isqrtAux : Nat → Nat → Nat → Nat
  | 0, _, r => r
  | b + 1, n, r => isqrtAux b n (if (r ||| 2 ^ b) * (r ||| 2 ^ b) ≤ n then r ||| 2 ^ b else r)

/-- The integer square root of `n`. -/
def isqrt (n : Nat) : Nat := isqrtAux (log2 n / 2 + 1) n 0

/-- Binary32 square root (`sqrtf`): the root of `m * 2^e` is taken on `m` shifted left by
an amount that makes the exponent even and leaves at least 32 bits in the root. -/
def sqrt : Float32 → Float32
  | nan => nan
  | inf a => if a then nan else inf false
  | finite m e =>
    if m < 0 then nan
    else
      let sh : Nat := 64 + (e % 2).toNat
      let n : Nat := m.natAbs <<< sh
      round false (isqrt n) ((e - (sh : Int)) / 2) (isqrt n * isqrt n != n)

/-- The rational value of a finite binary32 number (0 for an infinity or a NaN). -/
def toRat : Float32 → ℚ
  | finite m e => (m : ℚ) * (2 : ℚ) ^ e
  | _ => 0

end Float32

instance : Add Float32 := ⟨Float32.add⟩

instance : Neg Float32 := ⟨Float32.neg⟩

/-- Subtraction is addition of the negated operand, as in binary32. -/
instance : Sub Float32 := ⟨fun a b => Float32.add a (Float32.neg b)⟩

instance : Mul Float32 := ⟨Float32.mul⟩

instance : Div Float32 := ⟨Float32.div⟩

instance : Zero Float32 := ⟨Float32.finite 0 0⟩

instance : One Float32 := ⟨Float32.finite 1 0⟩

/-- An integer literal, rounded to binary32. -/
instance : NatCast Float32 := ⟨fun n => Float32.round false n 0 false⟩

/-- A decimal literal such as `0.25f`, rounded to binary32. -/
instance : OfScientific Float32 :=
  ⟨fun m s e =>
    if s then Float32.roundQuot false m (10 ^ e) 0 else Float32.round false (m * 10 ^ e) 0 false⟩

/-- A cube far from the world origin with a small box: origin `(8192, 8192, 8192)`, box
`(-2^-12, -2^-12, -2^-12)`..`(2^-12, 2^-12, 2^-12)`. -/
def absorbedCube : CBreakableCube Float32 :=
  cubeAt ⟨8192, 8192, 8192⟩
    ⟨Float32.finite (-1) (-12), Float32.finite (-1) (-12), Float32.finite (-1) (-12)⟩
    ⟨Float32.finite 1 (-12), Float32.finite 1 (-12), Float32.finite 1 (-12)⟩

/-- A cube at `(8192, 8192, 8192)` whose box `8192 - 2^-10`..`8192 + 2^-10` on every axis
has the origin as its midpoint. -/
def tieCube : CBreakableCube Float32 :=
  cubeAt ⟨8192, 8192, 8192⟩
    ⟨Float32.finite 8388607 (-10), Float32.finite 8388607 (-10), Float32.finite 8388607 (-10)⟩
    ⟨Float32.finite 8388609 (-10), Float32.finite 8388609 (-10), Float32.finite 8388609 (-10)⟩

/-- A cube at `(1, 2, 3)` whose box `(4, 5, 6)`..`(4, 5, 6)` has zero extent on all three
axes. -/
def pointCube : CBreakableCube Float32 :=
  cubeAt ⟨1, 2, 3⟩ ⟨4, 5, 6⟩ ⟨4, 5, 6⟩

/-- A cube at the world origin whose box `(0, -2, 0)`..`(0, 2, 0)` has extent on the
y axis only. -/
def axisCube : CBreakableCube Float32 :=
  cubeAt ⟨0, 0, 0⟩ ⟨0, -2, 0⟩ ⟨0, 2, 0⟩

/-! ## Lemmas on vectors and placement -/

section PlacementLemmas

variable {K : Type} [LinearOrderedField K]

@[simp] theorem Vector.add_x {F : Type} [Add F] (a b : Vector F) : (a + b).x = a.x + b.x := rfl
@[simp] theorem Vector.add_y {F : Type} [Add F] (a b : Vector F) : (a + b).y = a.y + b.y := rfl
@[simp] theorem Vector.add_z {F : Type} [Add F] (a b : Vector F) : (a + b).z = a.z + b.z := rfl
@[simp] theorem Vector.sub_x {F : Type} [Sub F] (a b : Vector F) : (a - b).x = a.x - b.x := rfl
@[simp] theorem Vector.sub_y {F : Type} [Sub F] (a b : Vector F) : (a - b).y = a.y - b.y := rfl
@[simp] theorem Vector.sub_z {F : Type} [Sub F] (a b : Vector F) : (a - b).z = a.z - b.z := rfl
@[simp] theorem Vector.neg_x {F : Type} [Neg F] (a : Vector F) : (-a).x = -a.x := rfl
@[simp] theorem Vector.neg_y {F : Type} [Neg F] (a : Vector F) : (-a).y = -a.y := rfl
@[simp] theorem Vector.neg_z {F : Type} [Neg F] (a : Vector F) : (-a).z = -a.z := rfl
@[simp] theorem Vector.mul_x {F : Type} [Mul F] (a : Vector F) (s : F) : (a * s).x = a.x * s :=
  rfl
@[simp] theorem Vector.mul_y {F : Type} [Mul F] (a : Vector F) (s : F) : (a * s).y = a.y * s :=
  rfl
@[simp] theorem Vector.mul_z {F : Type} [Mul F] (a : Vector F) (s : F) : (a * s).z = a.z * s :=
  rfl
@[simp] theorem Vector.div_x {F : Type} [Div F] (a : Vector F) (s : F) : (a / s).x = a.x / s :=
  rfl
@[simp] theorem Vector.div_y {F : Type} [Div F] (a : Vector F) (s : F) : (a / s).y = a.y / s :=
  rfl
@[simp] theorem Vector.div_z {F : Type} [Div F] (a : Vector F) (s : F) : (a / s).z = a.z / s :=
  rfl

theorem spawnPos_x {F : Type} [Add F] [Neg F] (c o : Vector F) (i : Nat) :
    (spawnPos c o i).x = c.x + (if (i &&& 1) ≠ 0 then o.x else -o.x) := rfl

theorem spawnPos_y {F : Type} [Add F] [Neg F] (c o : Vector F) (i : Nat) :
    (spawnPos c o i).y = c.y + (if (i &&& 2) ≠ 0 then o.y else -o.y) := rfl

theorem spawnPos_z {F : Type} [Add F] [Neg F] (c o : Vector F) (i : Nat) :
    (spawnPos c o i).z = c.z + (if (i &&& 4) ≠ 0 then o.z else -o.z) := rfl

/-- The three mask tests of the loop body read the three low bits of the mask. -/
theorem mask_bits (i : Nat) (hi : i < 8) :
    ((i &&& 1) ≠ 0 ↔ i.testBit 0 = true) ∧ ((i &&& 2) ≠ 0 ↔ i.testBit 1 = true) ∧
      ((i &&& 4) ≠ 0 ↔ i.testBit 2 = true) := by
  interval_cases i <;> decide

/-- The spawn position as centre plus signed offset, the signs read off the mask bits. -/
theorem spawnPos_eq (c o : Vector K) (i : Nat) (hi : i < 8) :
    spawnPos c o i =
      c + (⟨signFactor (i.testBit 0) * o.x, signFactor (i.testBit 1) * o.y,
            signFactor (i.testBit 2) * o.z⟩ : Vector K) := by
  obtain ⟨h0, h1, h2⟩ := mask_bits i hi
  ext
  · rw [spawnPos_x]
    by_cases h : i.testBit 0 = true
    · rw [if_pos (h0.2 h)]; simp [signFactor, h]
    · rw [if_neg (fun hh => h (h0.1 hh))]; simp [signFactor, h]
  · rw [spawnPos_y]
    by_cases h : i.testBit 1 = true
    · rw [if_pos (h1.2 h)]; simp [signFactor, h]
    · rw [if_neg (fun hh => h (h1.1 hh))]; simp [signFactor, h]
  · rw [spawnPos_z]
    by_cases h : i.testBit 2 = true
    · rw [if_pos (h2.2 h)]; simp [signFactor, h]
    · rw [if_neg (fun hh => h (h2.1 hh))]; simp [signFactor, h]

end PlacementLemmas

/-! ## Lemmas on the trace of `CreateDebris` -/

section TraceLemmas

variable {K : Type} [Add K] [Sub K] [Mul K] [Div K] [Neg K] [Zero K] [NatCast K]
  [OfScientific K] [DecidableEq K]

/-- Filtering a concatenation of segments, when each segment keeps at most one item. -/
theorem filterMap_flatMap_option {α β γ : Type} (l : List α) (g : α → List β)
    (f : β → Option γ) (h : α → Option γ)
    (hg : ∀ a, (g a).filterMap f = (h a).toList) :
    (l.flatMap g).filterMap f = l.filterMap h := by
  induction l with
  | nil => rfl
  | cons a l ih =>
    rw [List.flatMap_cons, List.filterMap_append, ih, hg, List.filterMap_cons]
    cases h a <;> rfl

theorem CreateDebris_eq (eng : Engine K) (self : CBreakableCube K) (push : Vector K) :
    CreateDebris eng self push =
      (List.range 8).flatMap (CreateDebris_body eng self push self.GetAbsOrigin
        (vecOffset self.m_vecMins self.m_vecMaxs)) := rfl

/-- The creation requests of a fragmentation run: one per mask, in the order 0..7. -/
theorem createCalls_CreateDebris (eng : Engine K) (self : CBreakableCube K)
    (push : Vector K) :
    createCalls (CreateDebris eng self push) =
      (List.range 8).map (fun i => eng.CreateEntityByName i "prop_physics") := by
  rw [CreateDebris_eq, createCalls, filterMap_flatMap_option _ _ _
    (some ∘ fun i => eng.CreateEntityByName i "prop_physics"), List.filterMap_eq_map]
  intro i
  unfold CreateDebris_body
  cases h : eng.CreateEntityByName i "prop_physics" with
  | none => simp [h]
  | some e => cases h2 : eng.VPhysicsGetObject e <;> simp [h, h2]

/-- The positions handed out by a fragmentation run: for each mask whose entity was
created, in order, the position computed for that mask. -/
theorem originsSet_CreateDebris (eng : Engine K) (self : CBreakableCube K)
    (push : Vector K) :
    originsSet (CreateDebris eng self push) =
      (List.range 8).filterMap (fun i =>
        (eng.CreateEntityByName i "prop_physics").map (fun e => (e, fragmentPos self i))) := by
  rw [CreateDebris_eq, originsSet]
  apply filterMap_flatMap_option
  intro i
  unfold CreateDebris_body
  cases h : eng.CreateEntityByName i "prop_physics" with
  | none => simp
  | some e => cases h2 : eng.VPhysicsGetObject e <;> simp [h2, fragmentPos]

/-- The orientations handed out by a fragmentation run: the cube's own, for each mask
whose entity was created. -/
theorem anglesSet_CreateDebris (eng : Engine K) (self : CBreakableCube K)
    (push : Vector K) :
    anglesSet (CreateDebris eng self push) =
      (List.range 8).filterMap (fun i =>
        (eng.CreateEntityByName i "prop_physics").map (fun e => (e, self.GetAbsAngles))) := by
  rw [CreateDebris_eq, anglesSet]
  apply filterMap_flatMap_option
  intro i
  unfold CreateDebris_body
  cases h : eng.CreateEntityByName i "prop_physics" with
  | none => simp
  | some e => cases h2 : eng.VPhysicsGetObject e <;> simp [h2]

/-- The velocities set by a fragmentation run: for each mask whose entity and physics
object both exist, in order, the velocity computed for that mask. -/
theorem velocitiesSet_CreateDebris (eng : Engine K) (self : CBreakableCube K)
    (push : Vector K) :
    velocitiesSet (CreateDebris eng self push) =
      (List.range 8).filterMap (fun i =>
        (eng.CreateEntityByName i "prop_physics").bind (fun e =>
          (eng.VPhysicsGetObject e).map (fun p => (p, fragmentVel eng.sqrtf self push i)))) := by
  rw [CreateDebris_eq, velocitiesSet]
  apply filterMap_flatMap_option
  intro i
  unfold CreateDebris_body
  cases h : eng.CreateEntityByName i "prop_physics" with
  | none => simp
  | some e =>
    cases h2 : eng.VPhysicsGetObject e <;>
      simp [h2, fragmentVel, fragmentOutward, fragmentPos]

end TraceLemmas

/-! ## Placement of the fragments -/

section PlacementClaims

variable {K : Type} [LinearOrderedField K]

theorem mask_eq_of_testBit (i j : Nat) (hi : i < 8) (hj : j < 8)
    (h0 : i.testBit 0 = j.testBit 0) (h1 : i.testBit 1 = j.testBit 1)
    (h2 : i.testBit 2 = j.testBit 2) : i = j := by
  have key : ∀ i < 8, ∀ j < 8, i.testBit 0 = j.testBit 0 → i.testBit 1 = j.testBit 1 →
      i.testBit 2 = j.testBit 2 → i = j := by decide
  exact key i hi j hj h0 h1 h2

theorem filterMap_option_sublist_map {α β γ : Type} (c : α → Option γ) (g : α → β)
    (l : List α) : (l.filterMap fun a => (c a).map fun _ => g a).Sublist (l.map g) := by
  induction l with
  | nil => exact List.Sublist.slnil
  | cons a l ih =>
    rw [List.filterMap_cons, List.map_cons]
    cases c a with
    | none => exact List.Sublist.cons _ ih
    | some e => exact List.Sublist.cons₂ _ ih

/-- The mask whose three low bits are the given signs. -/
theorem exists_mask (sx sy sz : Bool) :
    ∃ i, i < 8 ∧ i.testBit 0 = sx ∧ i.testBit 1 = sy ∧ i.testBit 2 = sz := by
  revert sx sy sz
  decide

/-- C2: with `offset = (maxs - mins) * 0.25`, the spawn position of the mask `i` in 0..7
is the centre plus `(sx*offset.x, sy*offset.y, sz*offset.z)`, where `sx`, `sy`, `sz` are
`+1` when bit 0, 1, 2 of `i` is set and `-1` otherwise, and that is the position given to
the entity created for `i`. For the box `(-10,-10,-10)`..`(10,10,10)` centred at the
origin the offset is `(5,5,5)`, mask 0 spawns at `(-5,-5,-5)` and mask 7 at `(5,5,5)`. -/
theorem C2_spawn_position_formula (eng : Engine K) (self : CBreakableCube K)
    (push : Vector K) (i : Nat) (hi : i < 8) :
    (fragmentPos self i = self.GetAbsOrigin +
      (⟨signFactor (i.testBit 0) * ((self.m_vecMaxs.x - self.m_vecMins.x) * 0.25),
        signFactor (i.testBit 1) * ((self.m_vecMaxs.y - self.m_vecMins.y) * 0.25),
        signFactor (i.testBit 2) * ((self.m_vecMaxs.z - self.m_vecMins.z) * 0.25)⟩ :
        Vector K)) ∧
    (∀ e, eng.CreateEntityByName i "prop_physics" = some e →
      (e, self.GetAbsOrigin +
        (⟨signFactor (i.testBit 0) * ((self.m_vecMaxs.x - self.m_vecMins.x) * 0.25),
          signFactor (i.testBit 1) * ((self.m_vecMaxs.y - self.m_vecMins.y) * 0.25),
          signFactor (i.testBit 2) * ((self.m_vecMaxs.z - self.m_vecMins.z) * 0.25)⟩ :
          Vector K)) ∈ originsSet (CreateDebris eng self push)) ∧
    (vecOffset (exampleCube : CBreakableCube K).m_vecMins
        (exampleCube : CBreakableCube K).m_vecMaxs = ⟨5, 5, 5⟩ ∧
      fragmentPos (exampleCube : CBreakableCube K) 0 = ⟨-5, -5, -5⟩ ∧
      fragmentPos (exampleCube : CBreakableCube K) 7 = ⟨5, 5, 5⟩) := by
  have hpos : fragmentPos self i = self.GetAbsOrigin +
      (⟨signFactor (i.testBit 0) * ((self.m_vecMaxs.x - self.m_vecMins.x) * 0.25),
        signFactor (i.testBit 1) * ((self.m_vecMaxs.y - self.m_vecMins.y) * 0.25),
        signFactor (i.testBit 2) * ((self.m_vecMaxs.z - self.m_vecMins.z) * 0.25)⟩ :
        Vector K) := by
    rw [fragmentPos, spawnPos_eq _ _ i hi]
    rfl
  refine ⟨hpos, ?_, ?_, ?_, ?_⟩
  · intro e he
    rw [originsSet_CreateDebris, List.mem_filterMap]
    exact ⟨i, List.mem_range.2 hi, by rw [he, ← hpos]; rfl⟩
  · ext <;> simp [vecOffset, exampleCube] <;> norm_num
  · ext <;> simp [fragmentPos, spawnPos, vecOffset, exampleCube,
      CBreakableCube.GetAbsOrigin] <;> norm_num
  · ext <;> simp [fragmentPos, spawnPos, vecOffset, exampleCube,
      CBreakableCube.GetAbsOrigin] <;> norm_num

/-- C2 at mask 3 of the cube with the box `(-10,-10,-10)`..`(10,10,10)`. -/
theorem C2_spawn_position_formula_witness :
    (3 < 8) ∧ fragmentPos (exampleCube : CBreakableCube ℝ) 3 = ⟨5, 5, -5⟩ :=
  ⟨by decide, by
    rw [(C2_spawn_position_formula (exampleEngine Real.sqrt)
      (exampleCube : CBreakableCube ℝ) ⟨0, 200, 0⟩ 3 (by decide)).1]
    have h0 : Nat.testBit 3 0 = true := by decide
    have h1 : Nat.testBit 3 1 = true := by decide
    have h2 : Nat.testBit 3 2 = false := by decide
    rw [h0, h1, h2]
    ext <;> simp [signFactor, exampleCube, CBreakableCube.GetAbsOrigin] <;> norm_num⟩

end PlacementClaims

/-! ## Normalisation and velocities -/

section Velocities

variable {K : Type} [LinearOrderedField K]

/-- The masks `i` and `7 - i` have opposite bits. -/
theorem testBit_seven_sub (i : Nat) (hi : i < 8) :
    (7 - i).testBit 0 = !i.testBit 0 ∧ (7 - i).testBit 1 = !i.testBit 1 ∧
      (7 - i).testBit 2 = !i.testBit 2 := by
  revert i
  decide

theorem map_snd_filterMap_of_some {α β γ : Type} (f : α → Option (β × γ)) (g : α → γ)
    (l : List α) (h : ∀ a ∈ l, ∃ b, f a = some (b, g a)) :
    (l.filterMap f).map Prod.snd = l.map g := by
  induction l with
  | nil => rfl
  | cons a l ih =>
    obtain ⟨b, hb⟩ := h a (List.mem_cons_self a l)
    rw [List.filterMap_cons, hb]
    simp only [List.map_cons]
    rw [ih (fun x hx => h x (List.mem_cons_of_mem a hx))]

end Velocities

/-! ## The destruction path -/

section Destruction

variable {K : Type} [LinearOrderedField K]

theorem Event_Killed_trace (eng : Engine K) (self : CBreakableCube K)
    (info : CTakeDamageInfo K) :
    (Event_Killed eng self info).1 =
      CreateDebris eng self (VectorNormalize eng.sqrtf info.GetDamageForce * (200 : K)) ++
        [Effect.EmitSound self.entindex "Physics.GlassBreak",
         Effect.UTIL_Remove self.entindex] := by
  simp [Event_Killed]

theorem velocitiesSet_Event_Killed (eng : Engine K) (self : CBreakableCube K)
    (info : CTakeDamageInfo K) :
    velocitiesSet (Event_Killed eng self info).1 =
      velocitiesSet (CreateDebris eng self
        (VectorNormalize eng.sqrtf info.GetDamageForce * (200 : K))) := by
  rw [Event_Killed_trace]
  simp [velocitiesSet]

theorem isFragmentCall_CreateDebris (eng : Engine K) (self : CBreakableCube K)
    (push : Vector K) : ∀ e ∈ CreateDebris eng self push, isFragmentCall e = true := by
  intro e he
  rw [CreateDebris_eq, List.mem_flatMap] at he
  obtain ⟨i, _, hi⟩ := he
  unfold CreateDebris_body at hi
  cases hc : eng.CreateEntityByName i "prop_physics" with
  | none =>
    simp [hc] at hi
    rw [hi]; rfl
  | some d =>
    cases hp : eng.VPhysicsGetObject d with
    | none =>
      simp [hc, hp] at hi
      rcases hi with h | h | h | h | h <;> rw [h] <;> rfl
    | some q =>
      simp [hc, hp] at hi
      rcases hi with h | h | h | h | h | h <;> rw [h] <;> rfl

/-- C3: the velocities set by the destruction path are, for every mask `i` whose entity
and physics object were created, `200 * normalize(f) + 300 * normalize(spawnPos_i -
centre)` with `f` the damage force; the trace does not depend on the damage amount; and
for the force `(0,1,0)` (with `sqrtf 1 = 1`) they are `(0,200,0) + outward_i * 300`. -/
theorem C3_fragment_velocity (eng : Engine K) (self : CBreakableCube K)
    (info : CTakeDamageInfo K) :
    velocitiesSet (Event_Killed eng self info).1 =
      (List.range 8).filterMap (fun i =>
        (eng.CreateEntityByName i "prop_physics").bind (fun e =>
          (eng.VPhysicsGetObject e).map (fun p =>
            (p, VectorNormalize eng.sqrtf info.GetDamageForce * (200 : K) +
              VectorNormalize eng.sqrtf (fragmentPos self i - self.GetAbsOrigin) *
                (300 : K))))) ∧
    (∀ amount : K,
      (Event_Killed eng self { info with m_flDamage := amount }).1 =
        (Event_Killed eng self info).1) ∧
    (eng.sqrtf 1 = 1 → info.GetDamageForce = ⟨0, 1, 0⟩ →
      velocitiesSet (Event_Killed eng self info).1 =
        (List.range 8).filterMap (fun i =>
          (eng.CreateEntityByName i "prop_physics").bind (fun e =>
            (eng.VPhysicsGetObject e).map (fun p =>
              (p, (⟨0, 200, 0⟩ : Vector K) +
                fragmentOutward eng.sqrtf self i * (300 : K)))))) := by
  have h1 : velocitiesSet (Event_Killed eng self info).1 =
      (List.range 8).filterMap (fun i =>
        (eng.CreateEntityByName i "prop_physics").bind (fun e =>
          (eng.VPhysicsGetObject e).map (fun p =>
            (p, VectorNormalize eng.sqrtf info.GetDamageForce * (200 : K) +
              VectorNormalize eng.sqrtf (fragmentPos self i - self.GetAbsOrigin) *
                (300 : K))))) := by
    rw [velocitiesSet_Event_Killed, velocitiesSet_CreateDebris]
    rfl
  refine ⟨h1, fun _ => rfl, ?_⟩
  intro hs hf
  rw [h1, hf]
  have hN : VectorNormalize eng.sqrtf (⟨0, 1, 0⟩ : Vector K) * (200 : K) = ⟨0, 200, 0⟩ := by
    have hl : LengthSqr (⟨0, 1, 0⟩ : Vector K) = 1 := by simp [LengthSqr]
    unfold VectorNormalize
    rw [hl, hs]
    ext <;> simp
  rw [hN]
  rfl

/-- C3 for the force `(0,1,0)` with damage amount 150 on the cube with the box
`(-10,-10,-10)`..`(10,10,10)`, over the reals with the real square root. -/
theorem C3_fragment_velocity_witness :
    (exampleEngine Real.sqrt).sqrtf 1 = 1 ∧
    velocitiesSet (Event_Killed (exampleEngine Real.sqrt) (exampleCube : CBreakableCube ℝ)
        ⟨⟨0, 1, 0⟩, 150⟩).1 =
      (List.range 8).filterMap (fun i =>
        ((exampleEngine Real.sqrt).CreateEntityByName i "prop_physics").bind (fun e =>
          ((exampleEngine Real.sqrt).VPhysicsGetObject e).map (fun p =>
            (p, (⟨0, 200, 0⟩ : Vector ℝ) +
              fragmentOutward (exampleEngine Real.sqrt).sqrtf
                (exampleCube : CBreakableCube ℝ) i * (300 : ℝ))))) :=
  ⟨Real.sqrt_one,
   (C3_fragment_velocity (exampleEngine Real.sqrt) (exampleCube : CBreakableCube ℝ)
      ⟨⟨0, 1, 0⟩, 150⟩).2.2 Real.sqrt_one rfl⟩

/-- C7: the engine calls issued by `Event_Killed` are, in this order, the calls of
`CreateDebris` run with the push `200 * normalize(damage force)`, all of which are
fragment-creation calls, then one break sound, then one removal request for the cube
itself, and nothing after it. -/
theorem C7_destruction_order (eng : Engine K) (self : CBreakableCube K)
    (info : CTakeDamageInfo K) :
    (Event_Killed eng self info).1 =
      CreateDebris eng self (VectorNormalize eng.sqrtf info.GetDamageForce * (200 : K)) ++
        [Effect.EmitSound self.entindex "Physics.GlassBreak",
         Effect.UTIL_Remove self.entindex] ∧
    (∀ e ∈ CreateDebris eng self
        (VectorNormalize eng.sqrtf info.GetDamageForce * (200 : K)),
      isFragmentCall e = true) ∧
    isFragmentCall (Effect.EmitSound self.entindex "Physics.GlassBreak" : Effect K) = false ∧
    isFragmentCall (Effect.UTIL_Remove self.entindex : Effect K) = false :=
  ⟨Event_Killed_trace eng self info, isFragmentCall_CreateDebris eng self _, rfl, rfl⟩

end Destruction

/-! ## Failure of single creations -/

section FailurePolicy

variable {K : Type} [LinearOrderedField K]

theorem filterMap_sublist_of_le {α β : Type} (f g : α → Option β) (l : List α)
    (h : ∀ a ∈ l, ∀ b, f a = some b → g a = some b) :
    (l.filterMap f).Sublist (l.filterMap g) := by
  induction l with
  | nil => exact List.Sublist.slnil
  | cons a l ih =>
    have ih2 := ih (fun x hx => h x (List.mem_cons_of_mem a hx))
    rw [List.filterMap_cons, List.filterMap_cons]
    cases hf : f a with
    | none =>
      cases hg : g a with
      | none => exact ih2
      | some c => exact List.Sublist.cons _ ih2
    | some b =>
      rw [h a (List.mem_cons_self a l) b hf]
      exact List.Sublist.cons₂ _ ih2

theorem length_filterMap_one_none {β : Type} (f : Nat → Option β) (k : Nat) (hk : k < 8)
    (hnone : f k = none) (hsome : ∀ i < 8, i ≠ k → (f i).isSome = true) :
    ((List.range 8).filterMap f).length = 7 := by
  rw [List.length_filterMap_eq_countP]
  have hc : List.countP (fun a => (f a).isSome) (List.range 8) =
      List.countP (fun a => decide (a ≠ k)) (List.range 8) := by
    apply List.countP_congr
    intro i hi
    by_cases hik : i = k
    · subst hik; simp [hnone]
    · simp [hik, hsome i (List.mem_range.1 hi) hik]
  rw [hc]
  have key : ∀ k < 8, List.countP (fun a => decide (a ≠ k)) (List.range 8) = 7 := by
    decide
  exact key k hk

/-- C5: whatever the outcomes of the 8 creations, `CreateDebris` requests an entity for
every mask in the order 0..7, hands position and orientation to exactly the entities that
were created and a velocity to exactly those that also have a physics object, and these
values are the ones computed for the mask alone, so they are the same as in any run in
which more creations succeed. If the fragment of exactly one mask fails, 8 requests are
made, 7 velocities are set, and the other 7 fragments receive their position, orientation
and velocity. -/
theorem C5_fragment_failure_local (eng : Engine K) (self : CBreakableCube K)
    (push : Vector K) :
    createCalls (CreateDebris eng self push) =
      (List.range 8).map (fun i => eng.CreateEntityByName i "prop_physics") ∧
    originsSet (CreateDebris eng self push) =
      (List.range 8).filterMap (fun i =>
        (eng.CreateEntityByName i "prop_physics").map (fun e => (e, fragmentPos self i))) ∧
    anglesSet (CreateDebris eng self push) =
      (List.range 8).filterMap (fun i =>
        (eng.CreateEntityByName i "prop_physics").map (fun e => (e, self.GetAbsAngles))) ∧
    velocitiesSet (CreateDebris eng self push) =
      (List.range 8).filterMap (fun i =>
        (eng.CreateEntityByName i "prop_physics").bind (fun e =>
          (eng.VPhysicsGetObject e).map (fun p =>
            (p, fragmentVel eng.sqrtf self push i)))) ∧
    (∀ eng' : Engine K, eng'.sqrtf = eng.sqrtf →
      (∀ i < 8, ∀ e, eng.CreateEntityByName i "prop_physics" = some e →
        eng'.CreateEntityByName i "prop_physics" = some e) →
      (∀ e p, eng.VPhysicsGetObject e = some p → eng'.VPhysicsGetObject e = some p) →
      (originsSet (CreateDebris eng self push)).Sublist
        (originsSet (CreateDebris eng' self push)) ∧
      (anglesSet (CreateDebris eng self push)).Sublist
        (anglesSet (CreateDebris eng' self push)) ∧
      (velocitiesSet (CreateDebris eng self push)).Sublist
        (velocitiesSet (CreateDebris eng' self push))) ∧
    (∀ k < 8,
      (eng.CreateEntityByName k "prop_physics").bind eng.VPhysicsGetObject = none →
      (∀ i < 8, i ≠ k → ∃ e p, eng.CreateEntityByName i "prop_physics" = some e ∧
        eng.VPhysicsGetObject e = some p) →
      (createCalls (CreateDebris eng self push)).length = 8 ∧
      (velocitiesSet (CreateDebris eng self push)).length = 7 ∧
      ∀ i < 8, i ≠ k → ∀ e p, eng.CreateEntityByName i "prop_physics" = some e →
        eng.VPhysicsGetObject e = some p →
        (e, fragmentPos self i) ∈ originsSet (CreateDebris eng self push) ∧
        (e, self.GetAbsAngles) ∈ anglesSet (CreateDebris eng self push) ∧
        (p, fragmentVel eng.sqrtf self push i) ∈
          velocitiesSet (CreateDebris eng self push)) := by
  refine ⟨createCalls_CreateDebris eng self push, originsSet_CreateDebris eng self push,
    anglesSet_CreateDebris eng self push, velocitiesSet_CreateDebris eng self push, ?_, ?_⟩
  · intro eng' hs hc hp
    rw [originsSet_CreateDebris, originsSet_CreateDebris, anglesSet_CreateDebris,
      anglesSet_CreateDebris, velocitiesSet_CreateDebris, velocitiesSet_CreateDebris, hs]
    refine ⟨?_, ?_, ?_⟩
    · apply filterMap_sublist_of_le
      intro i hi b hb
      cases he : eng.CreateEntityByName i "prop_physics" with
      | none => rw [he] at hb; simp at hb
      | some e => rw [he] at hb; rw [hc i (List.mem_range.1 hi) e he]; exact hb
    · apply filterMap_sublist_of_le
      intro i hi b hb
      cases he : eng.CreateEntityByName i "prop_physics" with
      | none => rw [he] at hb; simp at hb
      | some e => rw [he] at hb; rw [hc i (List.mem_range.1 hi) e he]; exact hb
    · apply filterMap_sublist_of_le
      intro i hi b hb
      cases he : eng.CreateEntityByName i "prop_physics" with
      | none => rw [he] at hb; simp at hb
      | some e =>
        rw [he] at hb
        rw [hc i (List.mem_range.1 hi) e he]
        cases hq : eng.VPhysicsGetObject e with
        | none => simp [hq] at hb
        | some q =>
          simp only [Option.some_bind, hq, Option.map_some'] at hb
          simp only [Option.some_bind, hp e q hq, Option.map_some']
          exact hb
  · intro k hk hfail hothers
    refine ⟨?_, ?_, ?_⟩
    · rw [createCalls_CreateDebris, List.length_map, List.length_range]
    · rw [velocitiesSet_CreateDebris]
      apply length_filterMap_one_none _ k hk
      · cases he : eng.CreateEntityByName k "prop_physics" with
        | none => rfl
        | some e =>
          rw [he] at hfail
          simp only [Option.some_bind] at hfail
          simp [hfail]
      · intro i hi hik
        obtain ⟨e, p, he, hp⟩ := hothers i hi hik
        simp [he, hp]
    · intro i hi _ e p he hp
      rw [originsSet_CreateDebris, anglesSet_CreateDebris, velocitiesSet_CreateDebris]
      refine ⟨?_, ?_, ?_⟩
      · rw [List.mem_filterMap]
        exact ⟨i, List.mem_range.2 hi, by simp [he]⟩
      · rw [List.mem_filterMap]
        exact ⟨i, List.mem_range.2 hi, by simp [he]⟩
      · rw [List.mem_filterMap]
        exact ⟨i, List.mem_range.2 hi, by simp [he, hp]⟩

/-- C5 for the engine in which only the creation for the mask 3 fails: 8 requests are
made and 7 velocities are set. -/
theorem C5_fragment_failure_local_witness :
    (3 < 8) ∧
    ((oneFailEngine Real.sqrt).CreateEntityByName 3 "prop_physics").bind
      (oneFailEngine Real.sqrt).VPhysicsGetObject = none ∧
    (createCalls (CreateDebris (oneFailEngine Real.sqrt) (exampleCube : CBreakableCube ℝ)
      ⟨0, 200, 0⟩)).length = 8 ∧
    (velocitiesSet (CreateDebris (oneFailEngine Real.sqrt) (exampleCube : CBreakableCube ℝ)
      ⟨0, 200, 0⟩)).length = 7 :=
  have h := (C5_fragment_failure_local (oneFailEngine Real.sqrt)
      (exampleCube : CBreakableCube ℝ) ⟨0, 200, 0⟩).2.2.2.2.2 3 (by decide)
      (by simp [oneFailEngine])
      (fun i _ hi3 => ⟨i, i, by simp [oneFailEngine, hi3], by simp [oneFailEngine, exampleEngine]⟩)
  ⟨by decide, by simp [oneFailEngine], h.1, h.2.1⟩

end FailurePolicy

/-! ## Repeated destruction -/

section Repeated

variable {K : Type} [LinearOrderedField K]

/-- C6, as the code has it: `Event_Killed` keeps no record of having run and writes no
field of the cube, so an invocation on a cube that has already gone through destruction
issues the same calls as a first invocation: the calls of a full `CreateDebris` run with
its 8 creation requests, then one break sound, then one removal request. -/
theorem C6_event_killed_repeats (eng : Engine K) (self : CBreakableCube K)
    (info info' : CTakeDamageInfo K) :
    (Event_Killed eng self info).2 = self ∧
    (Event_Killed eng (Event_Killed eng self info).2 info').1 =
      CreateDebris eng self (VectorNormalize eng.sqrtf info'.GetDamageForce * (200 : K)) ++
        [Effect.EmitSound self.entindex "Physics.GlassBreak",
         Effect.UTIL_Remove self.entindex] ∧
    (createCalls (Event_Killed eng (Event_Killed eng self info).2 info').1).length = 8 := by
  have h2 : (Event_Killed eng self info).2 = self := rfl
  refine ⟨h2, ?_, ?_⟩
  · rw [h2, Event_Killed_trace]
  · rw [h2, Event_Killed_trace]
    have happ : createCalls
        (CreateDebris eng self (VectorNormalize eng.sqrtf info'.GetDamageForce * (200 : K)) ++
          [Effect.EmitSound self.entindex "Physics.GlassBreak",
           Effect.UTIL_Remove self.entindex]) =
        createCalls (CreateDebris eng self
          (VectorNormalize eng.sqrtf info'.GetDamageForce * (200 : K))) := by
      simp [createCalls]
    rw [happ, createCalls_CreateDebris, List.length_map, List.length_range]

/-- C6 fails as stated: on the example cube, a second `Event_Killed` after a first one
issues 8 further creation requests, a second break sound and a second removal request. -/
theorem C6_second_kill_not_silent :
    (Event_Killed (exampleEngine Real.sqrt)
        (Event_Killed (exampleEngine Real.sqrt) (exampleCube : CBreakableCube ℝ)
          ⟨⟨0, 1, 0⟩, 150⟩).2 ⟨⟨0, 1, 0⟩, 150⟩).1 ≠ [] ∧
    (createCalls (Event_Killed (exampleEngine Real.sqrt)
        (Event_Killed (exampleEngine Real.sqrt) (exampleCube : CBreakableCube ℝ)
          ⟨⟨0, 1, 0⟩, 150⟩).2 ⟨⟨0, 1, 0⟩, 150⟩).1).length = 8 ∧
    Effect.EmitSound 1 "Physics.GlassBreak" ∈
      (Event_Killed (exampleEngine Real.sqrt)
        (Event_Killed (exampleEngine Real.sqrt) (exampleCube : CBreakableCube ℝ)
          ⟨⟨0, 1, 0⟩, 150⟩).2 ⟨⟨0, 1, 0⟩, 150⟩).1 ∧
    Effect.UTIL_Remove 1 ∈
      (Event_Killed (exampleEngine Real.sqrt)
        (Event_Killed (exampleEngine Real.sqrt) (exampleCube : CBreakableCube ℝ)
          ⟨⟨0, 1, 0⟩, 150⟩).2 ⟨⟨0, 1, 0⟩, 150⟩).1 := by
  have h2 : (Event_Killed (exampleEngine Real.sqrt) (exampleCube : CBreakableCube ℝ)
      ⟨⟨0, 1, 0⟩, 150⟩).2 = exampleCube := rfl
  rw [h2, Event_Killed_trace]
  refine ⟨by simp, ?_, by simp [exampleCube], by simp [exampleCube]⟩
  have happ : ∀ t : List (Effect ℝ), createCalls
      (t ++ [Effect.EmitSound (exampleCube : CBreakableCube ℝ).entindex "Physics.GlassBreak",
        Effect.UTIL_Remove (exampleCube : CBreakableCube ℝ).entindex]) = createCalls t := by
    intro t
    simp [createCalls]
  rw [happ, createCalls_CreateDebris, List.length_map, List.length_range]

end Repeated

/-! ## Spawn -/

section SpawnClaims

variable {K : Type}

theorem or_flag_and_flag_ne_zero (flags : Nat) :
    ((flags ||| FSOLID_NOT_SOLID) &&& FSOLID_NOT_SOLID) ≠ 0 := by
  intro h
  have h2 : ((flags ||| FSOLID_NOT_SOLID) &&& FSOLID_NOT_SOLID).testBit 2 = true := by
    rw [Nat.testBit_and, Nat.testBit_or]
    have : FSOLID_NOT_SOLID.testBit 2 = true := by decide
    simp [this]
  rw [h] at h2
  simp at h2

/-- C8: after `Spawn`, whichever way the physics-body initialisation went, the health is
100 and damage is accepted. If the initialisation failed, the solid type is `SOLID_BBOX`
and the not-solid flag is set. If it succeeded, `Spawn` leaves solid type and solid flags
as the initialisation left them, so the solid type is still `SOLID_VPHYSICS` and the
not-solid flag is clear. Assumed of the engine: `BaseClass::Spawn` keeps these four
fields, and a successful `VPhysicsInitNormal( SOLID_VPHYSICS, 0, false )` leaves the solid
type `SOLID_VPHYSICS` and the not-solid flag clear. -/
theorem C8_spawn_postcondition (eng : Engine K) (self : CBreakableCube K)
    (hbase : ∀ e : CBreakableCube K,
      (eng.BaseClass_Spawn e).m_iHealth = e.m_iHealth ∧
      (eng.BaseClass_Spawn e).m_takedamage = e.m_takedamage ∧
      (eng.BaseClass_Spawn e).m_nSolidType = e.m_nSolidType ∧
      (eng.BaseClass_Spawn e).m_usSolidFlags = e.m_usSolidFlags)
    (hphys : ∀ (e e' : CBreakableCube K) (p : Nat),
      eng.VPhysicsInitNormal SolidType_t.SOLID_VPHYSICS 0 false e = (some p, e') →
      e'.m_nSolidType = SolidType_t.SOLID_VPHYSICS ∧
      e'.IsSolidFlagSet FSOLID_NOT_SOLID = false) :
    (Spawn eng self).2.m_iHealth = 100 ∧
    (Spawn eng self).2.m_takedamage = TakeDamage_t.DAMAGE_YES ∧
    ((eng.VPhysicsInitNormal SolidType_t.SOLID_VPHYSICS 0 false
        (((self.SetModel ENTITY_MODEL).SetSolid SolidType_t.SOLID_VPHYSICS).SetMoveType
          MoveType_t.MOVETYPE_NONE)).1 ≠ none →
      (Spawn eng self).2.m_nSolidType = SolidType_t.SOLID_VPHYSICS ∧
      (Spawn eng self).2.IsSolidFlagSet FSOLID_NOT_SOLID = false ∧
      (Spawn eng self).2.m_usSolidFlags =
        (eng.VPhysicsInitNormal SolidType_t.SOLID_VPHYSICS 0 false
          (((self.SetModel ENTITY_MODEL).SetSolid SolidType_t.SOLID_VPHYSICS).SetMoveType
            MoveType_t.MOVETYPE_NONE)).2.m_usSolidFlags) ∧
    ((eng.VPhysicsInitNormal SolidType_t.SOLID_VPHYSICS 0 false
        (((self.SetModel ENTITY_MODEL).SetSolid SolidType_t.SOLID_VPHYSICS).SetMoveType
          MoveType_t.MOVETYPE_NONE)).1 = none →
      (Spawn eng self).2.m_nSolidType = SolidType_t.SOLID_BBOX ∧
      (Spawn eng self).2.IsSolidFlagSet FSOLID_NOT_SOLID = true) := by
  refine ⟨?_, ?_, ?_, ?_⟩
  · simp only [Spawn]
    rw [(hbase _).1]
    rfl
  · simp only [Spawn]
    rw [(hbase _).2.1]
  · intro hok
    cases hr : eng.VPhysicsInitNormal SolidType_t.SOLID_VPHYSICS 0 false
        (((self.SetModel ENTITY_MODEL).SetSolid SolidType_t.SOLID_VPHYSICS).SetMoveType
          MoveType_t.MOVETYPE_NONE) with
    | mk o e' =>
      rw [hr] at hok
      cases o with
      | none => exact absurd rfl hok
      | some p =>
        obtain ⟨hs, hf⟩ := hphys _ _ _ hr
        simp only [Spawn, CBreakableCube.IsSolidFlagSet, hr]
        rw [(hbase _).2.2.1, (hbase _).2.2.2]
        exact ⟨hs, hf, rfl⟩
  · intro hfail
    cases hr : eng.VPhysicsInitNormal SolidType_t.SOLID_VPHYSICS 0 false
        (((self.SetModel ENTITY_MODEL).SetSolid SolidType_t.SOLID_VPHYSICS).SetMoveType
          MoveType_t.MOVETYPE_NONE) with
    | mk o e' =>
      rw [hr] at hfail
      simp only at hfail
      subst hfail
      simp only [Spawn, CBreakableCube.IsSolidFlagSet, hr]
      rw [(hbase _).2.2.1, (hbase _).2.2.2]
      refine ⟨rfl, ?_⟩
      have := or_flag_and_flag_ne_zero e'.m_usSolidFlags
      simpa [CBreakableCube.SetHealth, CBreakableCube.AddSolidFlags,
        CBreakableCube.SetSolid] using this

/-- C8 on the example engine, whose physics initialisation succeeds: `Spawn` sets health
and damage acceptance and keeps the full collision mesh. -/
theorem C8_spawn_postcondition_witness :
    (Spawn (exampleEngine Real.sqrt) (exampleCube : CBreakableCube ℝ)).2.m_iHealth = 100 ∧
    (Spawn (exampleEngine Real.sqrt) (exampleCube : CBreakableCube ℝ)).2.m_takedamage =
      TakeDamage_t.DAMAGE_YES ∧
    (Spawn (exampleEngine Real.sqrt) (exampleCube : CBreakableCube ℝ)).2.m_nSolidType =
      SolidType_t.SOLID_VPHYSICS ∧
    (Spawn (exampleEngine Real.sqrt)
      (exampleCube : CBreakableCube ℝ)).2.IsSolidFlagSet FSOLID_NOT_SOLID = false :=
  have h := C8_spawn_postcondition (exampleEngine Real.sqrt)
    (exampleCube : CBreakableCube ℝ)
    (fun _ => ⟨rfl, rfl, rfl, rfl⟩)
    (fun e e' p hp => by
      simp only [exampleEngine, Prod.mk.injEq] at hp
      rw [← hp.2]
      exact ⟨rfl, by simp [CBreakableCube.IsSolidFlagSet]⟩)
  have hok : ((exampleEngine Real.sqrt).VPhysicsInitNormal SolidType_t.SOLID_VPHYSICS 0 false
      ((((exampleCube : CBreakableCube ℝ).SetModel ENTITY_MODEL).SetSolid
        SolidType_t.SOLID_VPHYSICS).SetMoveType MoveType_t.MOVETYPE_NONE)).1 ≠ none := by
    simp [exampleEngine]
  ⟨h.1, h.2.1, (h.2.2.1 hok).1, (h.2.2.1 hok).2.1⟩

end SpawnClaims

/-! ## Negation in binary32 -/

namespace Float32

theorem neg_finite (m e : Int) : neg (finite m e) = finite (-m) e := rfl

theorem neg_inf (s : Bool) : neg (inf s) = inf (!s) := rfl

theorem mul_finite (m1 e1 m2 e2 : Int) :
    mul (finite m1 e1) (finite m2 e2) =
      round (decide (m1 * m2 < 0)) (m1 * m2).natAbs (e1 + e2) false := rfl

theorem mul_inf_finite (s : Bool) (m e : Int) :
    mul (inf s) (finite m e) = if m = 0 then nan else inf (s != decide (m < 0)) := rfl

theorem mul_finite_inf (s : Bool) (m e : Int) :
    mul (finite m e) (inf s) = if m = 0 then nan else inf (s != decide (m < 0)) := rfl

theorem div_finite (m1 e1 m2 e2 : Int) :
    div (finite m1 e1) (finite m2 e2) =
      if m2 = 0 then (if m1 = 0 then nan else inf (decide (m1 < 0)))
      else roundQuot (decide (m1 < 0) != decide (m2 < 0)) m1.natAbs m2.natAbs (e1 - e2) := rfl

theorem div_inf_finite (s : Bool) (m e : Int) :
    div (inf s) (finite m e) = inf (s != decide (m < 0)) := rfl

theorem neg_norm (s : Bool) (m : Nat) (e : Int) : neg (norm s m e) = norm (!s) m e := by
  unfold norm
  by_cases hm : m = 0
  · simp [hm, neg_finite]
  · simp only [hm, if_false, neg_finite]
    cases s <;> simp

theorem neg_round (s : Bool) (m : Nat) (e : Int) (st : Bool) :
    neg (round s m e st) = round (!s) m e st := by
  unfold round
  by_cases hm : m = 0
  · simp [hm, neg_finite]
  · simp only [hm, if_false]
    rw [apply_ite neg, neg_inf, neg_norm]

theorem neg_roundQuot (s : Bool) (n d : Nat) (e : Int) :
    neg (roundQuot s n d e) = roundQuot (!s) n d e := by
  unfold roundQuot
  exact neg_round _ _ _ _

theorem round_zero (s : Bool) (e : Int) (st : Bool) : round s 0 e st = finite 0 0 := by
  simp [round]

theorem roundQuot_zero (s : Bool) (d : Nat) (e : Int) : roundQuot s 0 d e = finite 0 0 := by
  simp [roundQuot, round]

theorem decide_neg_lt (m : Int) (hm : m ≠ 0) : decide (-m < 0) = !decide (m < 0) := by
  by_cases h : m < 0
  · have : ¬ (-m < 0) := by omega
    simp [h, this]
  · have : -m < 0 := by omega
    simp [h, this]

theorem neg_mul (a b : Float32) : mul (neg a) b = neg (mul a b) := by
  cases a with
  | nan => cases b <;> rfl
  | inf s =>
    cases b with
    | nan => rfl
    | inf t => cases s <;> cases t <;> rfl
    | finite m e =>
      rw [neg_inf, mul_inf_finite, mul_inf_finite]
      by_cases hm : m = 0
      · simp only [hm, if_true]; rfl
      · simp only [hm, if_false, neg_inf]
        cases s <;> simp
  | finite m e =>
    cases b with
    | nan => rfl
    | inf t =>
      rw [neg_finite, mul_finite_inf, mul_finite_inf]
      by_cases hm : m = 0
      · simp only [hm, neg_zero, if_true]; rfl
      · have hm' : -m ≠ 0 := by omega
        simp only [hm, hm', if_false, neg_inf, decide_neg_lt m hm]
        cases t <;> simp
    | finite m2 e2 =>
      rw [neg_finite, mul_finite, mul_finite]
      by_cases hz : m * m2 = 0
      · have hz' : -m * m2 = 0 := by rw [Int.neg_mul, hz]; rfl
        rw [hz, hz']
        simp only [Int.natAbs_zero, round_zero, neg_finite, neg_zero]
      · have hz' : -m * m2 = -(m * m2) := Int.neg_mul m m2
        rw [hz', Int.natAbs_neg, decide_neg_lt _ hz, neg_round]

theorem neg_mul_neg (a : Float32) : mul (neg a) (neg a) = mul a a := by
  cases a with
  | nan => rfl
  | inf s => cases s <;> rfl
  | finite m e =>
    rw [neg_finite, mul_finite, mul_finite, Int.neg_mul_neg]

theorem neg_div (a b : Float32) : div (neg a) b = neg (div a b) := by
  cases a with
  | nan => cases b <;> rfl
  | inf s =>
    cases b with
    | nan => rfl
    | inf t => rfl
    | finite m e =>
      rw [neg_inf, div_inf_finite, div_inf_finite, neg_inf]
      cases s <;> simp
  | finite m e =>
    cases b with
    | nan => rfl
    | inf t => rfl
    | finite m2 e2 =>
      rw [neg_finite, div_finite, div_finite]
      by_cases h2 : m2 = 0
      · simp only [h2, if_true]
        by_cases hm : m = 0
        · simp only [hm, neg_zero, if_true]; rfl
        · have hm' : -m ≠ 0 := by omega
          simp only [hm, hm', if_false, neg_inf, decide_neg_lt m hm]
      · simp only [h2, if_false]
        by_cases hm : m = 0
        · simp only [hm, neg_zero, Int.natAbs_zero, roundQuot_zero, neg_finite]
        · rw [Int.natAbs_neg, decide_neg_lt m hm, neg_roundQuot]
          cases decide (m < 0) <;> cases decide (m2 < 0) <;> rfl

end Float32

/-- Binary32 is symmetric about zero. -/
theorem Float32.signSymmetric : SignSymmetric Float32 :=
  ⟨Float32.neg_mul, Float32.neg_mul_neg, Float32.neg_div, rfl⟩

/-! ## Placement for every number type -/

/-- The position computed for a mask, read off the three low bits of the mask. -/
theorem fragmentPos_eq_signedOffset {F : Type} [Add F] [Sub F] [Mul F] [Neg F]
    [OfScientific F] (self : CBreakableCube F) (i : Nat) (hi : i < 8) :
    fragmentPos self i =
      signedOffset self.GetAbsOrigin (vecOffset self.m_vecMins self.m_vecMaxs)
        (i.testBit 0) (i.testBit 1) (i.testBit 2) := by
  obtain ⟨h0, h1, h2⟩ := mask_bits i hi
  unfold fragmentPos signedOffset
  ext
  · rw [spawnPos_x]
    by_cases h : i.testBit 0 = true
    · rw [if_pos (h0.2 h), if_pos h]
    · rw [if_neg (fun hh => h (h0.1 hh)), if_neg h]
  · rw [spawnPos_y]
    by_cases h : i.testBit 1 = true
    · rw [if_pos (h1.2 h), if_pos h]
    · rw [if_neg (fun hh => h (h1.1 hh)), if_neg h]
  · rw [spawnPos_z]
    by_cases h : i.testBit 2 = true
    · rw [if_pos (h2.2 h), if_pos h]
    · rw [if_neg (fun hh => h (h2.1 hh)), if_neg h]

theorem sign_eq_of_sum_eq {F : Type} [Add F] [Neg F] (c o : F) (h : c + o ≠ c + -o)
    (a b : Bool)
    (hab : c + (if a = true then o else -o) = c + (if b = true then o else -o)) : a = b := by
  cases a <;> cases b
  · rfl
  · simp only [Bool.false_eq_true, if_false, if_true] at hab
    exact absurd hab.symm h
  · simp only [Bool.false_eq_true, if_false, if_true] at hab
    exact absurd hab h
  · rfl

/-- One axis of the placement when nothing is rounded: the coordinate is the midpoint of
the centre and the selected bound, and lies between the bounds. -/
theorem axis_midpoint {F R : Type} [Add F] [Sub F] [Mul F] [Neg F] [OfScientific F]
    [LinearOrderedField R] (val : F → R) (c lo hi : F)
    (b : Bool) (hex : PlacementExact val c lo hi) (hmid : (val lo + val hi) / 2 = val c) :
    val (c + (if b = true then (hi - lo) * 0.25 else -((hi - lo) * 0.25))) =
        (val c + val (if b = true then hi else lo)) / 2 ∧
      (val lo ≤ val hi →
        val lo ≤ val (c + (if b = true then (hi - lo) * 0.25 else -((hi - lo) * 0.25))) ∧
        val (c + (if b = true then (hi - lo) * 0.25 else -((hi - lo) * 0.25))) ≤ val hi) := by
  obtain ⟨h1, h2, h3, h4⟩ := hex
  cases b
  · simp only [Bool.false_eq_true, if_false]
    rw [h4, h2, h1, ← hmid]
    refine ⟨by ring, fun hle => ⟨by linarith, by linarith⟩⟩
  · simp only [if_true]
    rw [h3, h2, h1, ← hmid]
    refine ⟨by ring, fun hle => ⟨by linarith, by linarith⟩⟩

/-- Without rounding error, a nonzero extent keeps `c + offset` and `c - offset` apart. -/
theorem sums_differ_of_exact {F R : Type} [Add F] [Sub F] [Mul F] [Neg F] [OfScientific F]
    [LinearOrderedField R] (val : F → R) (c lo hi : F) (hex : PlacementExact val c lo hi)
    (hne : val hi - val lo ≠ 0) :
    c + (hi - lo) * 0.25 ≠ c + -((hi - lo) * 0.25) := by
  obtain ⟨h1, h2, h3, h4⟩ := hex
  intro h
  have hv := congrArg val h
  rw [h3, h4, h2, h1] at hv
  apply hne
  linarith

section RoundedPlacement

variable {F : Type} [Add F] [Sub F] [Mul F] [Div F] [Neg F] [Zero F] [NatCast F]
  [OfScientific F] [DecidableEq F]

/-- C1, as the code has it: for every number type, centre and box, the position of the
mask `i` in 0..7 is the centre plus `+offset` on the axes whose bit of `i` is set and
`-offset` on the others, each of the 8 sign combinations belonging to exactly one mask;
when every creation succeeds these 8 positions, in the order of the masks, are the ones
handed out. They are pairwise distinct when, on every axis, `centre + offset` and
`centre - offset` as computed differ, which is the case when the extent is nonzero on
every axis and the placement is carried out without rounding error. -/
theorem C1_spawn_positions_by_sign (eng : Engine F) (self : CBreakableCube F)
    (push : Vector F) :
    (∀ i < 8, fragmentPos self i =
      signedOffset self.GetAbsOrigin (vecOffset self.m_vecMins self.m_vecMaxs)
        (i.testBit 0) (i.testBit 1) (i.testBit 2)) ∧
    (∀ sx sy sz : Bool, ∃! i, i < 8 ∧ i.testBit 0 = sx ∧ i.testBit 1 = sy ∧
      i.testBit 2 = sz) ∧
    ((∀ i < 8, (eng.CreateEntityByName i "prop_physics").isSome) →
      (originsSet (CreateDebris eng self push)).map Prod.snd =
        (List.range 8).map (fragmentPos self)) ∧
    (self.GetAbsOrigin.x + (vecOffset self.m_vecMins self.m_vecMaxs).x ≠
        self.GetAbsOrigin.x + -(vecOffset self.m_vecMins self.m_vecMaxs).x →
      self.GetAbsOrigin.y + (vecOffset self.m_vecMins self.m_vecMaxs).y ≠
        self.GetAbsOrigin.y + -(vecOffset self.m_vecMins self.m_vecMaxs).y →
      self.GetAbsOrigin.z + (vecOffset self.m_vecMins self.m_vecMaxs).z ≠
        self.GetAbsOrigin.z + -(vecOffset self.m_vecMins self.m_vecMaxs).z →
      (∀ i < 8, ∀ j < 8, fragmentPos self i = fragmentPos self j → i = j) ∧
      ((originsSet (CreateDebris eng self push)).map Prod.snd).Nodup) ∧
    (∀ (R : Type) [LinearOrderedField R] (val : F → R),
      PlacementExact val self.GetAbsOrigin.x self.m_vecMins.x self.m_vecMaxs.x →
      PlacementExact val self.GetAbsOrigin.y self.m_vecMins.y self.m_vecMaxs.y →
      PlacementExact val self.GetAbsOrigin.z self.m_vecMins.z self.m_vecMaxs.z →
      val self.m_vecMaxs.x - val self.m_vecMins.x ≠ 0 →
      val self.m_vecMaxs.y - val self.m_vecMins.y ≠ 0 →
      val self.m_vecMaxs.z - val self.m_vecMins.z ≠ 0 →
      self.GetAbsOrigin.x + (vecOffset self.m_vecMins self.m_vecMaxs).x ≠
          self.GetAbsOrigin.x + -(vecOffset self.m_vecMins self.m_vecMaxs).x ∧
        self.GetAbsOrigin.y + (vecOffset self.m_vecMins self.m_vecMaxs).y ≠
          self.GetAbsOrigin.y + -(vecOffset self.m_vecMins self.m_vecMaxs).y ∧
        self.GetAbsOrigin.z + (vecOffset self.m_vecMins self.m_vecMaxs).z ≠
          self.GetAbsOrigin.z + -(vecOffset self.m_vecMins self.m_vecMaxs).z) := by
  refine ⟨fun i hi => fragmentPos_eq_signedOffset self i hi, ?_, ?_, ?_, ?_⟩
  rotate_right
  · intro R _ val ex ey ez nx ny nz
    exact ⟨sums_differ_of_exact val _ _ _ ex nx, sums_differ_of_exact val _ _ _ ey ny,
      sums_differ_of_exact val _ _ _ ez nz⟩
  · intro sx sy sz
    obtain ⟨i, hi, h0, h1, h2⟩ := exists_mask sx sy sz
    refine ⟨i, ⟨hi, h0, h1, h2⟩, ?_⟩
    rintro j ⟨hj, j0, j1, j2⟩
    exact mask_eq_of_testBit j i hj hi (j0.trans h0.symm) (j1.trans h1.symm)
      (j2.trans h2.symm)
  · intro hall
    rw [originsSet_CreateDebris]
    apply map_snd_filterMap_of_some
    intro i hi
    have := hall i (List.mem_range.1 hi)
    cases h : eng.CreateEntityByName i "prop_physics" with
    | none => rw [h] at this; exact absurd this (by simp)
    | some e => exact ⟨e, rfl⟩
  · intro hx hy hz
    have inj : ∀ i < 8, ∀ j < 8, fragmentPos self i = fragmentPos self j → i = j := by
      intro i hi j hj h
      rw [fragmentPos_eq_signedOffset self i hi, fragmentPos_eq_signedOffset self j hj] at h
      have ex := congrArg Vector.x h
      have ey := congrArg Vector.y h
      have ez := congrArg Vector.z h
      simp only [signedOffset] at ex ey ez
      exact mask_eq_of_testBit i j hi hj (sign_eq_of_sum_eq _ _ hx _ _ ex)
        (sign_eq_of_sum_eq _ _ hy _ _ ey) (sign_eq_of_sum_eq _ _ hz _ _ ez)
    refine ⟨inj, ?_⟩
    rw [originsSet_CreateDebris, List.map_filterMap]
    have hsub := filterMap_option_sublist_map
      (fun i => eng.CreateEntityByName i "prop_physics") (fragmentPos self) (List.range 8)
    have hnd : ((List.range 8).map (fragmentPos self)).Nodup :=
      List.Nodup.map_on
        (fun i hi j hj h => inj i (List.mem_range.1 hi) j (List.mem_range.1 hj) h)
        (List.nodup_range 8)
    refine List.Nodup.sublist ?_ hnd
    convert hsub using 2
    funext i
    cases eng.CreateEntityByName i "prop_physics" <;> rfl

end RoundedPlacement

/-- On the cube with the box `(-10,-10,-10)`..`(10,10,10)` at the origin the binary32
placement is exact: `10 - (-10) = 20`, `20 * 0.25 = 5`, `0 + 5 = 5`, `0 - 5 = -5`. -/
theorem exampleCube_placement_exact :
    PlacementExact Float32.toRat (Float32.finite 0 0) (Float32.finite (-5) 1)
      (Float32.finite 5 1) := by
  have h1 : Float32.finite 5 1 - Float32.finite (-5) 1 = Float32.finite 5 2 := by decide
  have h2 : Float32.finite 5 2 * (0.25 : Float32) = Float32.finite 5 0 := by decide
  have h3 : Float32.finite 0 0 + Float32.finite 5 0 = Float32.finite 5 0 := by decide
  have h4 : Float32.finite 0 0 + -Float32.finite 5 0 = Float32.finite (-5) 0 := by decide
  unfold PlacementExact
  rw [h1, h2, h3, h4]
  norm_num [Float32.toRat]

/-- C1 in binary32 on the cube with the box `(-10,-10,-10)`..`(10,10,10)` at the origin:
the placement is exact and the extent nonzero, so `0 + 5` and `0 - 5` differ on every
axis, and the 8 positions are pairwise distinct. -/
theorem C1_spawn_positions_by_sign_witness :
    PlacementExact Float32.toRat (exampleCube : CBreakableCube Float32).GetAbsOrigin.x
      (exampleCube : CBreakableCube Float32).m_vecMins.x
      (exampleCube : CBreakableCube Float32).m_vecMaxs.x ∧
    Float32.toRat (exampleCube : CBreakableCube Float32).m_vecMaxs.x -
      Float32.toRat (exampleCube : CBreakableCube Float32).m_vecMins.x ≠ 0 ∧
    ((exampleCube : CBreakableCube Float32).GetAbsOrigin.x +
        (vecOffset (exampleCube : CBreakableCube Float32).m_vecMins
          (exampleCube : CBreakableCube Float32).m_vecMaxs).x ≠
      (exampleCube : CBreakableCube Float32).GetAbsOrigin.x +
        -(vecOffset (exampleCube : CBreakableCube Float32).m_vecMins
          (exampleCube : CBreakableCube Float32).m_vecMaxs).x) ∧
    (∀ i < 8, ∀ j < 8, fragmentPos (exampleCube : CBreakableCube Float32) i =
      fragmentPos (exampleCube : CBreakableCube Float32) j → i = j) :=
  have e1 : (exampleCube : CBreakableCube Float32).GetAbsOrigin = ⟨Float32.finite 0 0,
      Float32.finite 0 0, Float32.finite 0 0⟩ := by decide
  have e2 : (exampleCube : CBreakableCube Float32).m_vecMins = ⟨Float32.finite (-5) 1,
      Float32.finite (-5) 1, Float32.finite (-5) 1⟩ := by decide
  have e3 : (exampleCube : CBreakableCube Float32).m_vecMaxs = ⟨Float32.finite 5 1,
      Float32.finite 5 1, Float32.finite 5 1⟩ := by decide
  have hex : ∀ c lo hi : Float32, c = Float32.finite 0 0 → lo = Float32.finite (-5) 1 →
      hi = Float32.finite 5 1 → PlacementExact Float32.toRat c lo hi :=
    fun c lo hi h1 h2 h3 => by rw [h1, h2, h3]; exact exampleCube_placement_exact
  have hne : ∀ lo hi : Float32, lo = Float32.finite (-5) 1 → hi = Float32.finite 5 1 →
      Float32.toRat hi - Float32.toRat lo ≠ 0 :=
    fun lo hi h2 h3 => by rw [h2, h3]; norm_num [Float32.toRat]
  have h := C1_spawn_positions_by_sign (exampleEngine Float32.sqrt)
    (exampleCube : CBreakableCube Float32) ⟨0, 200, 0⟩
  have hd := h.2.2.2.2 ℚ Float32.toRat
    (hex _ _ _ (by rw [e1]) (by rw [e2]) (by rw [e3]))
    (hex _ _ _ (by rw [e1]) (by rw [e2]) (by rw [e3]))
    (hex _ _ _ (by rw [e1]) (by rw [e2]) (by rw [e3]))
    (hne _ _ (by rw [e2]) (by rw [e3])) (hne _ _ (by rw [e2]) (by rw [e3]))
    (hne _ _ (by rw [e2]) (by rw [e3]))
  ⟨hex _ _ _ (by rw [e1]) (by rw [e2]) (by rw [e3]), hne _ _ (by rw [e2]) (by rw [e3]),
    hd.1, (h.2.2.2.1 hd.1 hd.2.1 hd.2.2).1⟩

/-- C1 fails as stated in binary32: on the cube at `(8192, 8192, 8192)` with the box
`±2^-12` the extent is nonzero on all three axes, yet the offset `2^-13` is absorbed by
the centre and all 8 created entities are handed the position `(8192, 8192, 8192)`. -/
theorem C1_absorbed_offsets_coincide :
    (absorbedCube.m_vecMaxs.x - absorbedCube.m_vecMins.x ≠ 0 ∧
      absorbedCube.m_vecMaxs.y - absorbedCube.m_vecMins.y ≠ 0 ∧
      absorbedCube.m_vecMaxs.z - absorbedCube.m_vecMins.z ≠ 0) ∧
    fragmentPos absorbedCube 0 = fragmentPos absorbedCube 7 ∧
    originsSet (CreateDebris (exampleEngine Float32.sqrt) absorbedCube ⟨0, 200, 0⟩) =
      (List.range 8).map (fun i => (i, (⟨8192, 8192, 8192⟩ : Vector Float32))) := by
  decide

/-! ## Outward direction and velocity for every number type -/

/-- Normalising a vector of nonzero computed length divides it by that length. -/
theorem VectorNormalize_of_ne_zero {F : Type} [Add F] [Mul F] [Div F] [Zero F]
    [DecidableEq F] (sqrtf : F → F) (d : Vector F) (h : sqrtf (LengthSqr d) ≠ 0) :
    VectorNormalize sqrtf d = d / sqrtf (LengthSqr d) := by
  unfold VectorNormalize
  simp only [ne_eq, h, not_false_eq_true, if_true]

/-- Normalising a vector of zero computed length gives the zero vector. -/
theorem VectorNormalize_of_eq_zero {F : Type} [Add F] [Mul F] [Div F] [Zero F]
    [DecidableEq F] (sqrtf : F → F) (d : Vector F) (h : sqrtf (LengthSqr d) = 0) :
    VectorNormalize sqrtf d = vec3_origin := by
  unfold VectorNormalize
  simp only [ne_eq, h, not_true_eq_false, if_false]

/-- A vector divided by its exact positive length has unit length and is a positive
multiple of the vector. -/
theorem unit_of_normalizeExact {F R : Type} [Add F] [Mul F] [Div F] [LinearOrderedField R]
    (val : F → R) (sqrtf : F → F) (d : Vector F) (h : NormalizeExact val sqrtf d) :
    val (d / sqrtf (LengthSqr d)).x * val (d / sqrtf (LengthSqr d)).x +
        val (d / sqrtf (LengthSqr d)).y * val (d / sqrtf (LengthSqr d)).y +
        val (d / sqrtf (LengthSqr d)).z * val (d / sqrtf (LengthSqr d)).z = 1 ∧
      ∃ k : R, 0 < k ∧ val (d / sqrtf (LengthSqr d)).x = val d.x * k ∧
        val (d / sqrtf (LengthSqr d)).y = val d.y * k ∧
        val (d / sqrtf (LengthSqr d)).z = val d.z * k := by
  obtain ⟨hpos, hsq, hx, hy, hz⟩ := h
  have hne : val (sqrtf (LengthSqr d)) ≠ 0 := ne_of_gt hpos
  simp only [Vector.div_x, Vector.div_y, Vector.div_z]
  rw [hx, hy, hz]
  refine ⟨?_, (val (sqrtf (LengthSqr d)))⁻¹, inv_pos.2 hpos, ?_, ?_, ?_⟩
  · have : val d.x / val (sqrtf (LengthSqr d)) * (val d.x / val (sqrtf (LengthSqr d))) +
        val d.y / val (sqrtf (LengthSqr d)) * (val d.y / val (sqrtf (LengthSqr d))) +
        val d.z / val (sqrtf (LengthSqr d)) * (val d.z / val (sqrtf (LengthSqr d))) =
        (val d.x * val d.x + val d.y * val d.y + val d.z * val d.z) /
          (val (sqrtf (LengthSqr d)) * val (sqrtf (LengthSqr d))) := by
      field_simp
    rw [this, ← hsq]
    exact div_self (mul_ne_zero hne hne)
  · rw [div_eq_mul_inv]
  · rw [div_eq_mul_inv]
  · rw [div_eq_mul_inv]

/-- With a box of zero extent the computed displacement of every fragment is zero, when
the centre keeps a zero offset. -/
theorem displacement_zero_of_zero_extent {F : Type} [Add F] [Sub F] [Mul F] [Neg F]
    [Zero F] [OfScientific F] (self : CBreakableCube F) (i : Nat)
    (hx : self.m_vecMaxs.x - self.m_vecMins.x = 0)
    (hy : self.m_vecMaxs.y - self.m_vecMins.y = 0)
    (hz : self.m_vecMaxs.z - self.m_vecMins.z = 0)
    (cx : ZeroOffsetKept self.GetAbsOrigin.x) (cy : ZeroOffsetKept self.GetAbsOrigin.y)
    (cz : ZeroOffsetKept self.GetAbsOrigin.z) :
    fragmentPos self i - self.GetAbsOrigin = vec3_origin := by
  unfold fragmentPos
  ext
  · rw [Vector.sub_x, spawnPos_x]
    show self.GetAbsOrigin.x + (if (i &&& 1) ≠ 0
      then (self.m_vecMaxs.x - self.m_vecMins.x) * 0.25
      else -((self.m_vecMaxs.x - self.m_vecMins.x) * 0.25)) - self.GetAbsOrigin.x = 0
    rw [hx]
    split
    · exact cx.1
    · exact cx.2
  · rw [Vector.sub_y, spawnPos_y]
    show self.GetAbsOrigin.y + (if (i &&& 2) ≠ 0
      then (self.m_vecMaxs.y - self.m_vecMins.y) * 0.25
      else -((self.m_vecMaxs.y - self.m_vecMins.y) * 0.25)) - self.GetAbsOrigin.y = 0
    rw [hy]
    split
    · exact cy.1
    · exact cy.2
  · rw [Vector.sub_z, spawnPos_z]
    show self.GetAbsOrigin.z + (if (i &&& 4) ≠ 0
      then (self.m_vecMaxs.z - self.m_vecMins.z) * 0.25
      else -((self.m_vecMaxs.z - self.m_vecMins.z) * 0.25)) - self.GetAbsOrigin.z = 0
    rw [hz]
    split
    · exact cz.1
    · exact cz.2

section RoundedVelocity

variable {F : Type} [Add F] [Sub F] [Mul F] [Div F] [Neg F] [Zero F] [NatCast F]
  [OfScientific F] [DecidableEq F]

/-- The velocity computed for a mask is set on the physics object of its fragment. -/
theorem fragmentVel_mem_velocitiesSet (eng : Engine F) (self : CBreakableCube F)
    (push : Vector F) (i : Nat) (hi : i < 8) (e p : Nat)
    (he : eng.CreateEntityByName i "prop_physics" = some e)
    (hp : eng.VPhysicsGetObject e = some p) :
    (p, fragmentVel eng.sqrtf self push i) ∈ velocitiesSet (CreateDebris eng self push) := by
  rw [velocitiesSet_CreateDebris, List.mem_filterMap]
  exact ⟨i, List.mem_range.2 hi, by simp [he, hp]⟩

/-- The position of the mask `7 - i` takes the opposite sign on every axis. -/
theorem fragmentPos_seven_sub {F : Type} [Add F] [Sub F] [Mul F] [Neg F] [OfScientific F]
    (self : CBreakableCube F) (i : Nat) (hi : i < 8) :
    fragmentPos self (7 - i) =
      signedOffset self.GetAbsOrigin (vecOffset self.m_vecMins self.m_vecMaxs)
        (!i.testBit 0) (!i.testBit 1) (!i.testBit 2) := by
  obtain ⟨h0, h1, h2⟩ := testBit_seven_sub i hi
  rw [fragmentPos_eq_signedOffset self (7 - i) (by omega), h0, h1, h2]

/-- Opposite signs on one axis: the two coordinates add up to twice the centre when the
two sums are exact. -/
theorem axis_pair_sum {F R : Type} [Add F] [Neg F] [LinearOrderedField R] (val : F → R)
    (c o : F) (b : Bool)
    (h : SumsExact val c o) :
    val (c + (if b = true then o else -o)) + val (c + (if (!b) = true then o else -o)) =
      2 * val c := by
  obtain ⟨h1, h2⟩ := h
  cases b
  · simp only [Bool.false_eq_true, if_false, Bool.not_false, if_true]
    rw [h1, h2]; ring
  · simp only [if_true, Bool.not_true, Bool.false_eq_true, if_false]
    rw [h1, h2]; ring

theorem LengthSqr_neg {F : Type} [Add F] [Mul F] [Div F] [Neg F] [Zero F]
    (hsym : SignSymmetric F) (d : Vector F) :
    LengthSqr (-d) = LengthSqr d := by
  simp only [LengthSqr, Vector.neg_x, Vector.neg_y, Vector.neg_z, hsym.2.1]

/-- Opposite vectors have opposite normalisations, in every sign-symmetric arithmetic. -/
theorem VectorNormalize_neg {F : Type} [Add F] [Mul F] [Div F] [Neg F] [Zero F]
    [DecidableEq F] (hsym : SignSymmetric F) (sqrtf : F → F) (d : Vector F) :
    VectorNormalize sqrtf (-d) = -VectorNormalize sqrtf d := by
  unfold VectorNormalize
  rw [LengthSqr_neg hsym]
  by_cases h : sqrtf (LengthSqr d) = 0
  · simp only [ne_eq, h, not_true_eq_false, if_false]
    ext <;> simp only [Vector.neg_x, Vector.neg_y, Vector.neg_z, vec3_origin] <;>
      exact hsym.2.2.2.symm
  · simp only [ne_eq, h, not_false_eq_true, if_true]
    ext <;> simp only [Vector.neg_x, Vector.neg_y, Vector.neg_z, Vector.div_x, Vector.div_y,
      Vector.div_z] <;> exact hsym.2.2.1 _ _

/-- The velocity of the mask `7 - i` when its displacement is the opposite of that of
`i`: the push plus the opposite outward impulse. -/
theorem fragmentVel_seven_sub (hsym : SignSymmetric F) (sqrtf : F → F)
    (self : CBreakableCube F) (push : Vector F) (i : Nat)
    (hd : fragmentPos self (7 - i) - self.GetAbsOrigin =
      -(fragmentPos self i - self.GetAbsOrigin)) :
    fragmentOutward sqrtf self (7 - i) = -fragmentOutward sqrtf self i ∧
      fragmentVel sqrtf self push (7 - i) =
        push + -(fragmentOutward sqrtf self i * (300 : F)) := by
  have hout : fragmentOutward sqrtf self (7 - i) = -fragmentOutward sqrtf self i := by
    rw [fragmentOutward, hd, VectorNormalize_neg hsym]
    rfl
  refine ⟨hout, ?_⟩
  rw [fragmentVel, hout]
  ext <;> simp only [Vector.add_x, Vector.add_y, Vector.add_z, Vector.mul_x, Vector.mul_y,
    Vector.mul_z, Vector.neg_x, Vector.neg_y, Vector.neg_z, hsym.1]

/-- The values of the velocities of the masks `i` and `7 - i` add up to twice the push,
when the displacements are opposite and the sums `push ± impulse` are exact. -/
theorem fragmentVel_pair_sum {R : Type} [LinearOrderedField R] (val : F → R)
    (hsym : SignSymmetric F) (sqrtf : F → F) (self : CBreakableCube F) (push : Vector F)
    (i : Nat)
    (hd : fragmentPos self (7 - i) - self.GetAbsOrigin =
      -(fragmentPos self i - self.GetAbsOrigin))
    (hx : SumsExact val push.x (fragmentOutward sqrtf self i * (300 : F)).x)
    (hy : SumsExact val push.y (fragmentOutward sqrtf self i * (300 : F)).y)
    (hz : SumsExact val push.z (fragmentOutward sqrtf self i * (300 : F)).z) :
    val (fragmentVel sqrtf self push i).x + val (fragmentVel sqrtf self push (7 - i)).x =
        2 * val push.x ∧
      val (fragmentVel sqrtf self push i).y + val (fragmentVel sqrtf self push (7 - i)).y =
        2 * val push.y ∧
      val (fragmentVel sqrtf self push i).z + val (fragmentVel sqrtf self push (7 - i)).z =
        2 * val push.z := by
  rw [(fragmentVel_seven_sub hsym sqrtf self push i hd).2]
  unfold fragmentVel
  simp only [Vector.add_x, Vector.add_y, Vector.add_z, Vector.neg_x, Vector.neg_y,
    Vector.neg_z]
  refine ⟨?_, ?_, ?_⟩
  · rw [hx.1, hx.2]; ring
  · rw [hy.1, hy.2]; ring
  · rw [hz.1, hz.2]; ring

end RoundedVelocity

/-- Two binary32 sums that are exact, checked on the evaluated operands. -/
theorem Float32.sumsExact_eval (a b a' b' s d : Float32) (ha : a = a') (hb : b = b')
    (h1 : a' + b' = s) (h2 : a' + -b' = d)
    (h3 : Float32.toRat s = Float32.toRat a' + Float32.toRat b')
    (h4 : Float32.toRat d = Float32.toRat a' - Float32.toRat b') :
    SumsExact Float32.toRat a b := by
  rw [ha, hb]
  exact ⟨by rw [h1, h3], by rw [h2, h4]⟩

end BreakableCube
